import Mathlib

/-!
Shallow embedding of the Mutterboard on-screen keyboard input core
(`src/qingboard.py` and `src/mutterboard.py`).

The embedding covers the modifier registry (held / latched / combo-used
state, left-right exclusivity, one-shot release), the double-Shift
shortcut detector, the per-contact touch tracker with per-key reference
counts, the key-repeat bookkeeping, the space long-press / cursor-mode
tracker, and the cursor-mode step emitter.

Python floats are modelled by rationals.  GLib timer sources are
modelled by explicit booleans: a scheduled callback that is still alive
is a `true` flag, `GLib.source_remove` sets it to `false`, and firing a
callback is an explicit transition function.  Python dictionaries are
modelled by association lists with first-match lookup.  GTK label text
switching (the shifted-symbol relabelling) and the timed CapsLock flash
are pure presentation concerns not referenced by any claim and are not
modelled; the boolean "pressed" / "cursor-mode" style classes are.
-/

namespace VKB

/-- Logical keys of the keyboard.  The eight modifiers, Space, CapsLock
and the four arrow keys are distinguished; every other label of
`KEY_MAPPING` is an `ordinary` key identified by a number. -/
inductive Key where
  | shiftL | shiftR | ctrlL | ctrlR | altL | altR | metaL | metaR
  | space | capslock
  | arrowLeft | arrowRight | arrowUp | arrowDown
  | ordinary (n : Nat)
deriving DecidableEq

/-- `MODIFIER_KEYS` membership. -/
def isModifier : Key → Bool
  | Key.shiftL | Key.shiftR | Key.ctrlL | Key.ctrlR
  | Key.altL | Key.altR | Key.metaL | Key.metaR => true
  | _ => false

/-- `SHIFT_KEYS` membership. -/
def isShift : Key → Bool
  | Key.shiftL | Key.shiftR => true
  | _ => false

/-- The expression `KEY_RIGHTSHIFT if key_code == KEY_LEFTSHIFT else
KEY_LEFTSHIFT` (only ever evaluated on a Shift key in the source). -/
def oppositeShift (k : Key) : Key :=
  if k = Key.shiftL then Key.shiftR else Key.shiftL

/-- A single uinput emission: `device.emit(code, 1)` or
`device.emit(code, 0)`. -/
inductive Ev where
  | keyDown (k : Key)
  | keyUp (k : Key)
deriving DecidableEq

/-- `ModifierState`: global per-modifier state. -/
structure ModState where
  pressed : Bool := false
  latched : Bool := false
  usedInCombo : Bool := false
deriving DecidableEq

/-- `TouchState`: state of one active contact. -/
structure TouchState where
  keyCode : Key
  pressTime : ℚ
deriving DecidableEq

/-- `RepeatState`: the two timer sources of a key-repeat, as liveness
flags (`delay_source`, `repeat_source`). -/
structure RepeatState where
  delayOn : Bool := false
  tickOn : Bool := false
deriving DecidableEq

/-- `SpaceTrackingState`: per-contact space-drag state.  `longPressOn`
records whether the record holds a (believed live) long-press source
handle. -/
structure SpaceTrackingState where
  cursorMode : Bool := false
  accumX : ℚ := 0
  accumY : ℚ := 0
  lastX : ℚ := 0
  lastY : ℚ := 0
  lastMotionAt : ℚ := 0
  longPressOn : Bool := false
deriving DecidableEq

/-- Dictionary lookup (first match), modelling Python `dict.get`. -/
def dget {κ α : Type} [DecidableEq κ] (m : List (κ × α)) (c : κ) : Option α :=
  match m with
  | [] => none
  | p :: rest => if p.1 = c then some p.2 else dget rest c

/-- Dictionary removal, modelling `dict.pop(c, None)`. -/
def dpop {κ α : Type} [DecidableEq κ] (m : List (κ × α)) (c : κ) : List (κ × α) :=
  m.filter (fun p => !(decide (p.1 = c)))

/-- Dictionary insertion / overwrite, modelling `dict[c] = v`. -/
def dset {κ α : Type} [DecidableEq κ] (m : List (κ × α)) (c : κ) (v : α) : List (κ × α) :=
  (c, v) :: dpop m c

theorem dget_dset_self {κ α : Type} [DecidableEq κ] (m : List (κ × α)) (c : κ) (v : α) :
    dget (dset m c v) c = some v := by
  simp [dget, dset]

theorem dget_dpop {κ α : Type} [DecidableEq κ] (m : List (κ × α)) (c c2 : κ) :
    dget (dpop m c) c2 = if c2 = c then none else dget m c2 := by
  induction m with
  | nil => simp [dget, dpop]
  | cons p rest ih =>
    by_cases hp : p.1 = c
    · rw [show dpop (p :: rest) c = dpop rest c from by simp [dpop, hp]]
      rw [ih]
      by_cases h2 : c2 = c
      · simp [h2]
      · have hpc2 : ¬ p.1 = c2 := fun hh => h2 (by rw [← hh]; exact hp)
        simp [dget, h2, hpc2]
    · rw [show dpop (p :: rest) c = p :: dpop rest c from by simp [dpop, hp]]
      by_cases hpc : p.1 = c2
      · have h2 : ¬ c2 = c := fun hh => hp (by rw [hpc, hh])
        simp [dget, hpc, h2]
      · simp [dget, hpc, ih]

theorem dget_dpop_self {κ α : Type} [DecidableEq κ] (m : List (κ × α)) (c : κ) :
    dget (dpop m c) c = none := by
  simp [dget_dpop]

theorem dget_dpop_ne {κ α : Type} [DecidableEq κ] (m : List (κ × α)) {c c2 : κ}
    (h : c2 ≠ c) : dget (dpop m c) c2 = dget m c2 := by
  simp [dget_dpop, h]

theorem dget_dset_ne {κ α : Type} [DecidableEq κ] (m : List (κ × α)) {c c2 : κ} (v : α)
    (h : c2 ≠ c) : dget (dset m c v) c2 = dget m c2 := by
  have hcc : ¬ c = c2 := fun hh => h hh.symm
  simp [dget, dset, hcc, dget_dpop_ne m h]

/-- The whole observable state of the `QingBoard` application relevant
to the input core: the `KeyboardEngine` (down-key set plus the emitted
uinput event trace), the global modifier table, the visual style flags,
the double-Shift detector, the contact tracker, the per-key press
counts, the repeat timers and the space tracker.  `shortcutEmits`
counts calls of `_emit_shortcut` (instrumentation only: no operation
reads it).  `pendingLongPress c` is true while a GLib long-press source
scheduled for contact `c` is still alive. -/
structure QB where
  mods : Key → ModState
  downKeys : Key → Bool
  events : List Ev
  visual : Key → Bool
  cursorVisual : Bool
  capsOn : Bool
  lastShiftTapAt : ℚ
  doubleShiftTimeoutMs : ℚ
  doubleShiftEnabled : Bool
  doubleShiftShortcut : List Key
  shortcutEmits : Nat
  touchStates : List (Nat × TouchState)
  pressCount : Key → Nat
  repeatStates : List (Nat × RepeatState)
  spaceTrack : List (Nat × SpaceTrackingState)
  pendingLongPress : Nat → Bool

/-- `KeyboardEngine.set_key_state`: emit only on an actual state change,
tracked by the down-key set. -/
def setKeyState (k : Key) (wantPressed : Bool) (s : QB) : QB :=
  if wantPressed && !(s.downKeys k) then
    { s with downKeys := fun k2 => if k2 = k then true else s.downKeys k2,
             events := s.events ++ [Ev.keyDown k] }
  else if !wantPressed && s.downKeys k then
    { s with downKeys := fun k2 => if k2 = k then false else s.downKeys k2,
             events := s.events ++ [Ev.keyUp k] }
  else s

/-- `KeyboardEngine.tap_key`: unconditional press-then-release, not
tracked by the down-key set. -/
def tapKey (k : Key) (s : QB) : QB :=
  { s with events := s.events ++ [Ev.keyDown k, Ev.keyUp k] }

/-- `_update_visual`: toggle the "pressed" style class of one key. -/
def updateVisual (k : Key) (p : Bool) (s : QB) : QB :=
  { s with visual := fun k2 => if k2 = k then p else s.visual k2 }

/-- `_paint_modifier`: like `_update_visual` but looked up in
`modifier_labels`, which only contains the modifier keys. -/
def paintModifier (k : Key) (a : Bool) (s : QB) : QB :=
  if isModifier k then updateVisual k a s else s

/-- Overwrite one entry of the global modifier table. -/
def setMod (s : QB) (k : Key) (m : ModState) : QB :=
  { s with mods := fun k2 => if k2 = k then m else s.mods k2 }

/-- `_force_release_modifier`: clear the full modifier state and emit a
physical release. -/
def forceReleaseModifier (k : Key) (s : QB) : QB :=
  paintModifier k false
    (setKeyState k false
      (setMod s k { pressed := false, latched := false, usedInCombo := false }))

/-- `_emit_shortcut`: press the modifier members, tap the non-modifier
members (or the modifier members when there are none), then release the
modifier members in reverse order. -/
def emitShortcut (combo : List Key) (s : QB) : QB :=
  let ms := combo.filter (fun k => isModifier k)
  let ns := combo.filter (fun k => !(isModifier k))
  let s1 := ms.foldl (fun acc k => setKeyState k true acc) s
  let s2 := if ns.isEmpty then ms.foldl (fun acc k => tapKey k acc) s1
            else ns.foldl (fun acc k => tapKey k acc) s1
  let s3 := ms.reverse.foldl (fun acc k => setKeyState k false acc) s2
  { s3 with shortcutEmits := s3.shortcutEmits + 1 }

/-- `_handle_shift_double_tap`.  `now` is the `time.monotonic()` sample
taken inside the handler. -/
def handleShiftDoubleTap (now : ℚ) (s : QB) : QB :=
  if !s.doubleShiftEnabled then { s with lastShiftTapAt := 0 }
  else
    if s.lastShiftTapAt > 0 ∧ (now - s.lastShiftTapAt) * 1000 ≤ s.doubleShiftTimeoutMs then
      let s1 := forceReleaseModifier Key.shiftL s
      let s2 := forceReleaseModifier Key.shiftR s1
      let s3 := emitShortcut s2.doubleShiftShortcut s2
      { s3 with lastShiftTapAt := 0 }
    else { s with lastShiftTapAt := now }

/-- `_on_modifier_press_global`. -/
def onModifierPressGlobal (k : Key) (s : QB) : QB :=
  let st := s.mods k
  let s1 := setMod s k { st with pressed := true, usedInCombo := false }
  let s2 := if isShift k then forceReleaseModifier (oppositeShift k) s1 else s1
  paintModifier k true (setKeyState k true s2)

/-- `_on_modifier_press_touch`: global press only if not already
physically pressed by another contact. -/
def onModifierPressTouch (k : Key) (s : QB) : QB :=
  if (s.mods k).pressed then s else onModifierPressGlobal k s

/-- `_on_modifier_release_global`. -/
def onModifierReleaseGlobal (now : ℚ) (k : Key) (s : QB) : QB :=
  let st := s.mods k
  let s1 := setMod s k { st with pressed := false }
  if st.usedInCombo then
    let s2 := if !st.latched then paintModifier k false (setKeyState k false s1) else s1
    setMod s2 k { s2.mods k with usedInCombo := false }
  else
    let s2 :=
      if st.latched then
        paintModifier k false (setKeyState k false (setMod s1 k { s1.mods k with latched := false }))
      else
        paintModifier k true (setMod s1 k { s1.mods k with latched := true })
    if isShift k then handleShiftDoubleTap now s2 else s2

/-- `_on_modifier_release_touch`: global release only when no other
contact still holds this key (the contact itself was already popped by
`_on_input_end`). -/
def onModifierReleaseTouch (now : ℚ) (c : Nat) (k : Key) (s : QB) : QB :=
  if s.touchStates.any (fun p => (p.1 != c) && decide (p.2.keyCode = k)) then s
  else onModifierReleaseGlobal now k s

/-- Iteration order used for `self.modifiers.items()`. -/
def modifierList : List Key :=
  [Key.shiftL, Key.shiftR, Key.ctrlL, Key.ctrlR, Key.altL, Key.altR, Key.metaL, Key.metaR]

/-- One iteration of the `_release_one_shot_modifiers` loop. -/
def releaseOneShotStep (s : QB) (k : Key) : QB :=
  if (s.mods k).latched && !(s.mods k).pressed then
    paintModifier k false (setKeyState k false (setMod s k { s.mods k with latched := false }))
  else s

/-- `_release_one_shot_modifiers`: unlatch every latched modifier that
is not physically pressed and emit its physical release. -/
def releaseOneShotModifiers (s : QB) : QB :=
  modifierList.foldl releaseOneShotStep s

/-- `notify_other_key_pressed` (the inlined loop marking every held
modifier as used in a combination). -/
def markCombos (s : QB) : QB :=
  { s with mods := fun k =>
      if isModifier k && (s.mods k).pressed then { s.mods k with usedInCombo := true }
      else s.mods k }

/-- `_cancel_repeat`: pop the record and remove both of its sources. -/
def cancelRepeat (c : Nat) (s : QB) : QB :=
  { s with repeatStates := dpop s.repeatStates c }

/-- `_start_repeat`: regular keys only; supersede any prior repeat of
the same contact and install the initial-delay source. -/
def startRepeat (c : Nat) (k : Key) (s : QB) : QB :=
  if isModifier k || k = Key.space then s
  else
    let s1 := cancelRepeat c s
    { s1 with repeatStates := dset s1.repeatStates c { delayOn := true, tickOn := false } }

/-- Does contact `tid` currently hold a non-modifier, non-space key
(the cancellation condition of `_stop_all_other_repeats`)? -/
def holdsRepeatable (s : QB) (tid : Nat) : Bool :=
  match dget s.touchStates tid with
  | some t => !(isModifier t.keyCode) && !(t.keyCode = Key.space)
  | none => false

/-- `_stop_all_other_repeats`: cancel the repeat of every other contact
whose key is a regular key. -/
def stopAllOtherRepeats (curTouch : Nat) (s : QB) : QB :=
  { s with repeatStates := s.repeatStates.filter (fun p =>
      (p.1 == curTouch) || !(holdsRepeatable s p.1)) }

/-- `_cancel_space_long_press`: remove the long-press source recorded in
the tracking record, if that record is still in the table. -/
def cancelSpaceLongPress (c : Nat) (s : QB) : QB :=
  match dget s.spaceTrack c with
  | some tr =>
    if tr.longPressOn then
      { s with spaceTrack := dset s.spaceTrack c { tr with longPressOn := false },
               pendingLongPress := fun c2 => if c2 = c then false else s.pendingLongPress c2 }
    else s
  | none => s

/-- The fresh `SpaceTrackingState()` built by `_begin_space_tracking`,
with its `long_press_source` installed. -/
def freshSpaceTracking : SpaceTrackingState :=
  { cursorMode := false, accumX := 0, accumY := 0, lastX := 0, lastY := 0,
    lastMotionAt := 0, longPressOn := true }

/-- `_begin_space_tracking`: fresh tracking record plus a newly
scheduled long-press source. -/
def beginSpaceTracking (c : Nat) (s : QB) : QB :=
  let s1 := cancelSpaceLongPress c s
  { s1 with spaceTrack := dset s1.spaceTrack c freshSpaceTracking,
            pendingLongPress := fun c2 => if c2 = c then true else s1.pendingLongPress c2 }

/-- `_finish_space_tracking`: pop the record first; note that the
subsequent `_cancel_space_long_press` call then finds no record, so the
pending GLib source (if any) is left alive. -/
def finishSpaceTracking (c : Nat) (s : QB) : QB :=
  match dget s.spaceTrack c with
  | none => tapKey Key.space s
  | some tr =>
    let s1 := { s with spaceTrack := dpop s.spaceTrack c }
    let s2 := cancelSpaceLongPress c s1
    if tr.cursorMode then s2 else tapKey Key.space s2

/-- `_enter_space_cursor_mode`: the long-press callback firing.  It
always returns `False`, so its source dies; the liveness guard skips
everything unless the contact is still tracked on the Space key. -/
def enterSpaceCursorMode (c : Nat) (s : QB) : QB :=
  let s0 := { s with pendingLongPress := fun c2 => if c2 = c then false else s.pendingLongPress c2 }
  match dget s0.touchStates c with
  | some t =>
    if t.keyCode = Key.space then
      match dget s0.spaceTrack c with
      | some tr =>
        { s0 with spaceTrack := dset s0.spaceTrack c { tr with cursorMode := true },
                  cursorVisual := true }
      | none => s0
    else s0
  | none => s0

/-- The first half of `_on_input_end`: pop the contact and decrement
the per-key press count (writing it back only when it was positive). -/
def popTouch (c : Nat) (k : Key) (s : QB) : QB :=
  { s with touchStates := dpop s.touchStates c,
           pressCount := if s.pressCount k > 0 then
               (fun k2 => if k2 = k then s.pressCount k - 1 else s.pressCount k2)
             else s.pressCount }

/-- `_on_input_end`. -/
def onInputEnd (now : ℚ) (c : Nat) (s : QB) : QB :=
  match dget s.touchStates c with
  | none => s
  | some t =>
    if t.keyCode = Key.capslock then popTouch c t.keyCode s
    else if isModifier t.keyCode then
      onModifierReleaseTouch now c t.keyCode (popTouch c t.keyCode s)
    else if t.keyCode = Key.space then
      updateVisual t.keyCode false
        (releaseOneShotModifiers (finishSpaceTracking c (popTouch c t.keyCode s)))
    else
      if (if s.pressCount t.keyCode > 0 then s.pressCount t.keyCode - 1 else 0) = 0 then
        updateVisual t.keyCode false
          (releaseOneShotModifiers (cancelRepeat c (popTouch c t.keyCode s)))
      else releaseOneShotModifiers (cancelRepeat c (popTouch c t.keyCode s))

/-- Common front of `_on_input_begin`: record the touch and bump the
per-key press count. -/
def registerTouch (now : ℚ) (c : Nat) (k : Key) (s : QB) : QB :=
  { s with touchStates := dset s.touchStates c { keyCode := k, pressTime := now },
           pressCount := fun k2 => if k2 = k then s.pressCount k + 1 else s.pressCount k2 }

/-- Tail of `_on_input_begin` for a regular key: mark combos, stop the
other contacts' repeats, emit the immediate tap, start this contact's
repeat and set the visual "pressed" state on the 0-to-1 transition. -/
def beginOrdinaryCore (c : Nat) (k : Key) (s : QB) : QB :=
  if (startRepeat c k (tapKey k (stopAllOtherRepeats c (markCombos s)))).pressCount k = 1 then
    updateVisual k true (startRepeat c k (tapKey k (stopAllOtherRepeats c (markCombos s))))
  else
    startRepeat c k (tapKey k (stopAllOtherRepeats c (markCombos s)))

/-- `_on_input_begin` (with the key already resolved by hit testing).
`now` doubles as the monotonic clock sample for `press_time`. -/
def onInputBegin (now : ℚ) (c : Nat) (k : Key) (s : QB) : QB :=
  let s0 := if (dget s.touchStates c).isSome then onInputEnd now c s else s
  let s1 := registerTouch now c k s0
  if k = Key.capslock then
    updateVisual k true (tapKey Key.capslock { s1 with capsOn := !s1.capsOn })
  else if isModifier k then
    onModifierPressTouch k s1
  else if k = Key.space then
    updateVisual k true (beginSpaceTracking c (markCombos s1))
  else
    beginOrdinaryCore c k s1

/-- The result of one `_emit_cursor_moves` call: the taps sent (one
list entry per `tap_key`) and the two updated accumulators. -/
structure CursorEmit where
  taps : List Key
  accumX : ℚ
  accumY : ℚ
deriving DecidableEq

/-- `_emit_cursor_moves` on the accumulator pair.  `int(x)` on a
non-negative float is the floor. -/
def emitCursorMoves (stepThreshold : ℚ) (ax ay : ℚ) : CursorEmit :=
  if |ay| ≤ |ax| then
    let steps : Nat := (Int.floor (|ax| / stepThreshold)).toNat
    if 0 < steps then
      { taps := List.replicate steps (if ax > 0 then Key.arrowRight else Key.arrowLeft),
        accumX := ax - (if ax > 0 then stepThreshold * steps else -(stepThreshold * steps)),
        accumY := 0 }
    else { taps := [], accumX := ax, accumY := ay }
  else
    let steps : Nat := (Int.floor (|ay| / stepThreshold)).toNat
    if 0 < steps then
      { taps := List.replicate steps (if ay > 0 then Key.arrowDown else Key.arrowUp),
        accumX := 0,
        accumY := ay - (if ay > 0 then stepThreshold * steps else -(stepThreshold * steps)) }
    else { taps := [], accumX := ax, accumY := ay }

/-- The step-threshold formula of `_on_space_motion_touch`:
`max(8.0, 28.0 - min(speed / 120.0, 16.0))`. -/
def stepThreshold (speed : ℚ) : ℚ := max 8 (28 - min (speed / 120) 16)

/-- Iterated cursor-mode sample processing: each sample adds its X
displacement to the accumulator and runs `_emit_cursor_moves` (Y
displacement zero per sample: the claim's "Y negligible" scenario),
with a fixed per-sample step threshold. -/
def motionRun (θ : ℚ) (ds : List ℚ) (ax ay : ℚ) : CursorEmit :=
  match ds with
  | [] => { taps := [], accumX := ax, accumY := ay }
  | d :: rest =>
    let r := emitCursorMoves θ (ax + d) ay
    let r2 := motionRun θ rest r.accumX r.accumY
    { taps := r.taps ++ r2.taps, accumX := r2.accumX, accumY := r2.accumY }

/-- The state of the near-duplicate `MutterBoard` application relevant
to its button-press path: modifier table, engine, visual flags, the
`active_keys` set and the per-key (not per-contact) repeat table. -/
structure MB where
  mods : Key → ModState
  downKeys : Key → Bool
  events : List Ev
  visual : Key → Bool
  activeKeys : Key → Bool
  repeatStates : List (Key × RepeatState)

/-- `KeyboardEngine.set_key_state` (mutterboard instance). -/
def mbSetKeyState (k : Key) (wantPressed : Bool) (s : MB) : MB :=
  if wantPressed && !(s.downKeys k) then
    { s with downKeys := fun k2 => if k2 = k then true else s.downKeys k2,
             events := s.events ++ [Ev.keyDown k] }
  else if !wantPressed && s.downKeys k then
    { s with downKeys := fun k2 => if k2 = k then false else s.downKeys k2,
             events := s.events ++ [Ev.keyUp k] }
  else s

/-- `_paint_pressed` on the button of key `k`. -/
def mbPaint (k : Key) (a : Bool) (s : MB) : MB :=
  { s with visual := fun k2 => if k2 = k then a else s.visual k2 }

/-- `_paint_modifier`: `modifier_buttons` only contains modifiers. -/
def mbPaintModifier (k : Key) (a : Bool) (s : MB) : MB :=
  if isModifier k then mbPaint k a s else s

/-- `_force_release_modifier` (mutterboard). -/
def mbForceReleaseModifier (k : Key) (s : MB) : MB :=
  mbPaintModifier k false
    (mbSetKeyState k false
      { s with mods := fun k2 => if k2 = k then
          { pressed := false, latched := false, usedInCombo := false } else s.mods k2 })

/-- `_on_modifier_press` (mutterboard). -/
def mbOnModifierPress (k : Key) (s : MB) : MB :=
  let st := s.mods k
  let s1 := { s with mods := fun k2 => if k2 = k then
                { st with pressed := true, usedInCombo := false } else s.mods k2 }
  let s2 := if isShift k then mbForceReleaseModifier (oppositeShift k) s1 else s1
  mbPaintModifier k true (mbSetKeyState k true s2)

/-- The combo-marking loop of `on_button_press`. -/
def mbMarkCombos (s : MB) : MB :=
  { s with mods := fun k =>
      if isModifier k && (s.mods k).pressed then { s.mods k with usedInCombo := true }
      else s.mods k }

/-- `_cancel_repeat` (mutterboard, keyed by key code). -/
def mbCancelRepeat (k : Key) (s : MB) : MB :=
  { s with repeatStates := dpop s.repeatStates k }

/-- `_start_repeat` (mutterboard): only modifiers are excluded, and only
the repeat of the same key is superseded. -/
def mbStartRepeat (k : Key) (s : MB) : MB :=
  if isModifier k then s
  else
    let s1 := mbCancelRepeat k s
    { s1 with repeatStates := dset s1.repeatStates k { delayOn := true, tickOn := false } }

/-- `on_button_press` (mutterboard). -/
def mbOnButtonPress (k : Key) (s : MB) : MB :=
  let s1 := mbPaint k true { s with activeKeys := fun k2 => if k2 = k then true else s.activeKeys k2 }
  if isModifier k then mbOnModifierPress k s1
  else mbStartRepeat k (mbSetKeyState k true (mbMarkCombos s1))

/-- A quiescent `QingBoard` state: nothing pressed, nothing latched,
nothing tracked, default double-Shift configuration. -/
def emptyQB : QB :=
  { mods := fun _ => {}, downKeys := fun _ => false, events := [],
    visual := fun _ => false, cursorVisual := false, capsOn := false,
    lastShiftTapAt := 0, doubleShiftTimeoutMs := 380, doubleShiftEnabled := true,
    doubleShiftShortcut := [Key.shiftL, Key.space], shortcutEmits := 0,
    touchStates := [], pressCount := fun _ => 0, repeatStates := [],
    spaceTrack := [], pendingLongPress := fun _ => false }

/-! ### Frame and characterization lemmas for the atomic operations -/

theorem setMod_mods_self (s : QB) (k : Key) (m : ModState) : (setMod s k m).mods k = m := by
  simp [setMod]

theorem setMod_mods_ne (s : QB) {k k2 : Key} (m : ModState) (h : k2 ≠ k) :
    (setMod s k m).mods k2 = s.mods k2 := by
  simp [setMod, h]

@[simp] theorem setKeyState_mods (k : Key) (b : Bool) (s : QB) :
    (setKeyState k b s).mods = s.mods := by
  unfold setKeyState
  split
  · rfl
  · split <;> rfl

@[simp] theorem setKeyState_visual (k : Key) (b : Bool) (s : QB) :
    (setKeyState k b s).visual = s.visual := by
  unfold setKeyState
  split
  · rfl
  · split <;> rfl

@[simp] theorem setKeyState_lastShiftTapAt (k : Key) (b : Bool) (s : QB) :
    (setKeyState k b s).lastShiftTapAt = s.lastShiftTapAt := by
  unfold setKeyState
  split
  · rfl
  · split <;> rfl

@[simp] theorem setKeyState_shortcutEmits (k : Key) (b : Bool) (s : QB) :
    (setKeyState k b s).shortcutEmits = s.shortcutEmits := by
  unfold setKeyState
  split
  · rfl
  · split <;> rfl

@[simp] theorem setKeyState_enabled (k : Key) (b : Bool) (s : QB) :
    (setKeyState k b s).doubleShiftEnabled = s.doubleShiftEnabled := by
  unfold setKeyState
  split
  · rfl
  · split <;> rfl

@[simp] theorem setKeyState_timeout (k : Key) (b : Bool) (s : QB) :
    (setKeyState k b s).doubleShiftTimeoutMs = s.doubleShiftTimeoutMs := by
  unfold setKeyState
  split
  · rfl
  · split <;> rfl

@[simp] theorem setKeyState_shortcut (k : Key) (b : Bool) (s : QB) :
    (setKeyState k b s).doubleShiftShortcut = s.doubleShiftShortcut := by
  unfold setKeyState
  split
  · rfl
  · split <;> rfl

@[simp] theorem setKeyState_touchStates (k : Key) (b : Bool) (s : QB) :
    (setKeyState k b s).touchStates = s.touchStates := by
  unfold setKeyState
  split
  · rfl
  · split <;> rfl

@[simp] theorem setKeyState_pressCount (k : Key) (b : Bool) (s : QB) :
    (setKeyState k b s).pressCount = s.pressCount := by
  unfold setKeyState
  split
  · rfl
  · split <;> rfl

@[simp] theorem setKeyState_repeatStates (k : Key) (b : Bool) (s : QB) :
    (setKeyState k b s).repeatStates = s.repeatStates := by
  unfold setKeyState
  split
  · rfl
  · split <;> rfl

@[simp] theorem setKeyState_spaceTrack (k : Key) (b : Bool) (s : QB) :
    (setKeyState k b s).spaceTrack = s.spaceTrack := by
  unfold setKeyState
  split
  · rfl
  · split <;> rfl

@[simp] theorem setKeyState_pendingLongPress (k : Key) (b : Bool) (s : QB) :
    (setKeyState k b s).pendingLongPress = s.pendingLongPress := by
  unfold setKeyState
  split
  · rfl
  · split <;> rfl

@[simp] theorem setKeyState_cursorVisual (k : Key) (b : Bool) (s : QB) :
    (setKeyState k b s).cursorVisual = s.cursorVisual := by
  unfold setKeyState
  split
  · rfl
  · split <;> rfl

@[simp] theorem setKeyState_down_self (k : Key) (b : Bool) (s : QB) :
    (setKeyState k b s).downKeys k = b := by
  rcases hb : b <;> rcases hd : s.downKeys k <;> simp [setKeyState, hd]

theorem setKeyState_down_ne (k : Key) (b : Bool) (s : QB) {k2 : Key} (h : k2 ≠ k) :
    (setKeyState k b s).downKeys k2 = s.downKeys k2 := by
  rcases hb : b <;> rcases hd : s.downKeys k <;> simp [setKeyState, hd, h]

theorem setKeyState_events_noop (k : Key) (b : Bool) (s : QB) (h : s.downKeys k = b) :
    (setKeyState k b s).events = s.events := by
  rcases b <;> simp [setKeyState, h]

theorem setKeyState_events_press (k : Key) (s : QB) (h : s.downKeys k = false) :
    (setKeyState k true s).events = s.events ++ [Ev.keyDown k] := by
  simp [setKeyState, h]

theorem setKeyState_events_release (k : Key) (s : QB) (h : s.downKeys k = true) :
    (setKeyState k false s).events = s.events ++ [Ev.keyUp k] := by
  simp [setKeyState, h]

theorem setKeyState_events_cases (k : Key) (b : Bool) (s : QB) :
    (setKeyState k b s).events = s.events ∨
    (setKeyState k b s).events = s.events ++ [Ev.keyDown k] ∨
    (setKeyState k b s).events = s.events ++ [Ev.keyUp k] := by
  rcases hb : b <;> rcases hd : s.downKeys k <;> simp [setKeyState, hd]

@[simp] theorem tapKey_mods (k : Key) (s : QB) : (tapKey k s).mods = s.mods := rfl

@[simp] theorem tapKey_downKeys (k : Key) (s : QB) : (tapKey k s).downKeys = s.downKeys := rfl

@[simp] theorem tapKey_visual (k : Key) (s : QB) : (tapKey k s).visual = s.visual := rfl

@[simp] theorem tapKey_lastShiftTapAt (k : Key) (s : QB) :
    (tapKey k s).lastShiftTapAt = s.lastShiftTapAt := rfl

@[simp] theorem tapKey_shortcutEmits (k : Key) (s : QB) :
    (tapKey k s).shortcutEmits = s.shortcutEmits := rfl

@[simp] theorem tapKey_enabled (k : Key) (s : QB) :
    (tapKey k s).doubleShiftEnabled = s.doubleShiftEnabled := rfl

@[simp] theorem tapKey_touchStates (k : Key) (s : QB) :
    (tapKey k s).touchStates = s.touchStates := rfl

@[simp] theorem tapKey_pressCount (k : Key) (s : QB) :
    (tapKey k s).pressCount = s.pressCount := rfl

@[simp] theorem tapKey_repeatStates (k : Key) (s : QB) :
    (tapKey k s).repeatStates = s.repeatStates := rfl

@[simp] theorem tapKey_spaceTrack (k : Key) (s : QB) :
    (tapKey k s).spaceTrack = s.spaceTrack := rfl

@[simp] theorem tapKey_pendingLongPress (k : Key) (s : QB) :
    (tapKey k s).pendingLongPress = s.pendingLongPress := rfl

@[simp] theorem tapKey_cursorVisual (k : Key) (s : QB) :
    (tapKey k s).cursorVisual = s.cursorVisual := rfl

@[simp] theorem tapKey_events (k : Key) (s : QB) :
    (tapKey k s).events = s.events ++ [Ev.keyDown k, Ev.keyUp k] := rfl

@[simp] theorem updateVisual_mods (k : Key) (p : Bool) (s : QB) :
    (updateVisual k p s).mods = s.mods := rfl

@[simp] theorem updateVisual_downKeys (k : Key) (p : Bool) (s : QB) :
    (updateVisual k p s).downKeys = s.downKeys := rfl

@[simp] theorem updateVisual_events (k : Key) (p : Bool) (s : QB) :
    (updateVisual k p s).events = s.events := rfl

@[simp] theorem updateVisual_touchStates (k : Key) (p : Bool) (s : QB) :
    (updateVisual k p s).touchStates = s.touchStates := rfl

@[simp] theorem updateVisual_pressCount (k : Key) (p : Bool) (s : QB) :
    (updateVisual k p s).pressCount = s.pressCount := rfl

@[simp] theorem updateVisual_repeatStates (k : Key) (p : Bool) (s : QB) :
    (updateVisual k p s).repeatStates = s.repeatStates := rfl

@[simp] theorem updateVisual_spaceTrack (k : Key) (p : Bool) (s : QB) :
    (updateVisual k p s).spaceTrack = s.spaceTrack := rfl

@[simp] theorem updateVisual_pendingLongPress (k : Key) (p : Bool) (s : QB) :
    (updateVisual k p s).pendingLongPress = s.pendingLongPress := rfl

@[simp] theorem updateVisual_cursorVisual (k : Key) (p : Bool) (s : QB) :
    (updateVisual k p s).cursorVisual = s.cursorVisual := rfl

@[simp] theorem updateVisual_lastShiftTapAt (k : Key) (p : Bool) (s : QB) :
    (updateVisual k p s).lastShiftTapAt = s.lastShiftTapAt := rfl

@[simp] theorem updateVisual_shortcutEmits (k : Key) (p : Bool) (s : QB) :
    (updateVisual k p s).shortcutEmits = s.shortcutEmits := rfl

@[simp] theorem updateVisual_visual_self (k : Key) (p : Bool) (s : QB) :
    (updateVisual k p s).visual k = p := by
  simp [updateVisual]

theorem updateVisual_visual_ne (k : Key) (p : Bool) (s : QB) {k2 : Key} (h : k2 ≠ k) :
    (updateVisual k p s).visual k2 = s.visual k2 := by
  simp [updateVisual, h]

@[simp] theorem paintModifier_mods (k : Key) (a : Bool) (s : QB) :
    (paintModifier k a s).mods = s.mods := by
  unfold paintModifier
  split <;> rfl

@[simp] theorem paintModifier_downKeys (k : Key) (a : Bool) (s : QB) :
    (paintModifier k a s).downKeys = s.downKeys := by
  unfold paintModifier
  split <;> rfl

@[simp] theorem paintModifier_events (k : Key) (a : Bool) (s : QB) :
    (paintModifier k a s).events = s.events := by
  unfold paintModifier
  split <;> rfl

@[simp] theorem paintModifier_lastShiftTapAt (k : Key) (a : Bool) (s : QB) :
    (paintModifier k a s).lastShiftTapAt = s.lastShiftTapAt := by
  unfold paintModifier
  split <;> rfl

@[simp] theorem paintModifier_shortcutEmits (k : Key) (a : Bool) (s : QB) :
    (paintModifier k a s).shortcutEmits = s.shortcutEmits := by
  unfold paintModifier
  split <;> rfl

@[simp] theorem paintModifier_enabled (k : Key) (a : Bool) (s : QB) :
    (paintModifier k a s).doubleShiftEnabled = s.doubleShiftEnabled := by
  unfold paintModifier
  split <;> rfl

@[simp] theorem paintModifier_timeout (k : Key) (a : Bool) (s : QB) :
    (paintModifier k a s).doubleShiftTimeoutMs = s.doubleShiftTimeoutMs := by
  unfold paintModifier
  split <;> rfl

@[simp] theorem paintModifier_shortcut (k : Key) (a : Bool) (s : QB) :
    (paintModifier k a s).doubleShiftShortcut = s.doubleShiftShortcut := by
  unfold paintModifier
  split <;> rfl

@[simp] theorem paintModifier_touchStates (k : Key) (a : Bool) (s : QB) :
    (paintModifier k a s).touchStates = s.touchStates := by
  unfold paintModifier
  split <;> rfl

@[simp] theorem paintModifier_pressCount (k : Key) (a : Bool) (s : QB) :
    (paintModifier k a s).pressCount = s.pressCount := by
  unfold paintModifier
  split <;> rfl

@[simp] theorem paintModifier_repeatStates (k : Key) (a : Bool) (s : QB) :
    (paintModifier k a s).repeatStates = s.repeatStates := by
  unfold paintModifier
  split <;> rfl

@[simp] theorem paintModifier_spaceTrack (k : Key) (a : Bool) (s : QB) :
    (paintModifier k a s).spaceTrack = s.spaceTrack := by
  unfold paintModifier
  split <;> rfl

@[simp] theorem paintModifier_pendingLongPress (k : Key) (a : Bool) (s : QB) :
    (paintModifier k a s).pendingLongPress = s.pendingLongPress := by
  unfold paintModifier
  split <;> rfl

@[simp] theorem paintModifier_cursorVisual (k : Key) (a : Bool) (s : QB) :
    (paintModifier k a s).cursorVisual = s.cursorVisual := by
  unfold paintModifier
  split <;> rfl

theorem paintModifier_visual_ne (k : Key) (a : Bool) (s : QB) {k2 : Key} (h : k2 ≠ k) :
    (paintModifier k a s).visual k2 = s.visual k2 := by
  unfold paintModifier
  split
  · exact updateVisual_visual_ne k a s h
  · rfl

theorem paintModifier_visual_notMod (k : Key) (a : Bool) (s : QB) {k2 : Key}
    (h : isModifier k2 = false) : (paintModifier k a s).visual k2 = s.visual k2 := by
  unfold paintModifier
  split
  · rename_i hk
    exact updateVisual_visual_ne k a s (fun hh => by rw [hh] at h; rw [h] at hk; exact absurd hk (by simp))
  · rfl

/-! ### Composite-operation lemmas -/

theorem foldl_preserve {α : Type} (g : QB → α) (step : QB → Key → QB)
    (hstep : ∀ s k, g (step s k) = g s) :
    ∀ (L : List Key) (s : QB), g (L.foldl step s) = g s := by
  intro L
  induction L with
  | nil => intro s; rfl
  | cons k rest ih => intro s; rw [List.foldl_cons, ih, hstep]

theorem forceRelease_mods_self (k : Key) (s : QB) :
    (forceReleaseModifier k s).mods k = { pressed := false, latched := false, usedInCombo := false } := by
  simp [forceReleaseModifier, setMod_mods_self]

theorem forceRelease_mods_ne (k : Key) (s : QB) {k2 : Key} (h : k2 ≠ k) :
    (forceReleaseModifier k s).mods k2 = s.mods k2 := by
  simp [forceReleaseModifier, setMod_mods_ne s (m := _) h]

@[simp] theorem forceRelease_down_self (k : Key) (s : QB) :
    (forceReleaseModifier k s).downKeys k = false := by
  simp [forceReleaseModifier, setMod]

theorem forceRelease_down_ne (k : Key) (s : QB) {k2 : Key} (h : k2 ≠ k) :
    (forceReleaseModifier k s).downKeys k2 = s.downKeys k2 := by
  simp [forceReleaseModifier, setKeyState_down_ne _ _ _ h, setMod]

@[simp] theorem forceRelease_lastShiftTapAt (k : Key) (s : QB) :
    (forceReleaseModifier k s).lastShiftTapAt = s.lastShiftTapAt := by
  simp [forceReleaseModifier, setMod]

@[simp] theorem forceRelease_shortcutEmits (k : Key) (s : QB) :
    (forceReleaseModifier k s).shortcutEmits = s.shortcutEmits := by
  simp [forceReleaseModifier, setMod]

@[simp] theorem forceRelease_enabled (k : Key) (s : QB) :
    (forceReleaseModifier k s).doubleShiftEnabled = s.doubleShiftEnabled := by
  simp [forceReleaseModifier, setMod]

@[simp] theorem forceRelease_timeout (k : Key) (s : QB) :
    (forceReleaseModifier k s).doubleShiftTimeoutMs = s.doubleShiftTimeoutMs := by
  simp [forceReleaseModifier, setMod]

@[simp] theorem forceRelease_shortcut (k : Key) (s : QB) :
    (forceReleaseModifier k s).doubleShiftShortcut = s.doubleShiftShortcut := by
  simp [forceReleaseModifier, setMod]

theorem forceRelease_events_ifdown (k : Key) (s : QB) (h : s.downKeys k = true) :
    (forceReleaseModifier k s).events = s.events ++ [Ev.keyUp k] := by
  unfold forceReleaseModifier
  rw [paintModifier_events,
      setKeyState_events_release k _
        (show (setMod s k { pressed := false, latched := false, usedInCombo := false }).downKeys k = true from h)]
  rfl

theorem forceRelease_events_notdown (k : Key) (s : QB) (h : s.downKeys k = false) :
    (forceReleaseModifier k s).events = s.events := by
  unfold forceReleaseModifier
  rw [paintModifier_events,
      setKeyState_events_noop k false _
        (show (setMod s k { pressed := false, latched := false, usedInCombo := false }).downKeys k = false from h)]
  rfl

theorem emitShortcut_preserve {α : Type} (g : QB → α)
    (h1 : ∀ (s : QB) (k : Key) (b : Bool), g (setKeyState k b s) = g s)
    (h2 : ∀ (s : QB) (k : Key), g (tapKey k s) = g s)
    (h3 : ∀ t : QB, g { t with shortcutEmits := t.shortcutEmits + 1 } = g t)
    (combo : List Key) (s : QB) : g (emitShortcut combo s) = g s := by
  simp only [emitShortcut]
  rw [h3, foldl_preserve g (fun acc k => setKeyState k false acc) (fun s k => h1 s k false)]
  split <;>
    rw [foldl_preserve g (fun acc k => tapKey k acc) (fun s k => h2 s k),
        foldl_preserve g (fun acc k => setKeyState k true acc) (fun s k => h1 s k true)]

theorem emitShortcut_mods (combo : List Key) (s : QB) :
    (emitShortcut combo s).mods = s.mods :=
  emitShortcut_preserve QB.mods (fun s k b => setKeyState_mods k b s)
    (fun s k => tapKey_mods k s) (fun _ => rfl) combo s

theorem emitShortcut_enabled (combo : List Key) (s : QB) :
    (emitShortcut combo s).doubleShiftEnabled = s.doubleShiftEnabled :=
  emitShortcut_preserve QB.doubleShiftEnabled (fun s k b => setKeyState_enabled k b s)
    (fun s k => tapKey_enabled k s) (fun _ => rfl) combo s

theorem emitShortcut_shortcutEmits (combo : List Key) (s : QB) :
    (emitShortcut combo s).shortcutEmits = s.shortcutEmits + 1 := by
  simp only [emitShortcut]
  rw [foldl_preserve QB.shortcutEmits (fun acc k => setKeyState k false acc)
        (fun s k => setKeyState_shortcutEmits k false s)]
  split <;>
    rw [foldl_preserve QB.shortcutEmits (fun acc k => tapKey k acc)
          (fun s k => tapKey_shortcutEmits k s),
        foldl_preserve QB.shortcutEmits (fun acc k => setKeyState k true acc)
          (fun s k => setKeyState_shortcutEmits k true s)]

/-- The double-tap branch condition of `_handle_shift_double_tap`. -/
def doubleTapFires (s : QB) (now : ℚ) : Prop :=
  s.doubleShiftEnabled = true ∧ s.lastShiftTapAt > 0 ∧
    (now - s.lastShiftTapAt) * 1000 ≤ s.doubleShiftTimeoutMs

instance (s : QB) (now : ℚ) : Decidable (doubleTapFires s now) := by
  unfold doubleTapFires; infer_instance

theorem doubleTap_fires_eq (now : ℚ) (s : QB) (h : doubleTapFires s now) :
    handleShiftDoubleTap now s =
      { emitShortcut (forceReleaseModifier Key.shiftR (forceReleaseModifier Key.shiftL s)).doubleShiftShortcut
          (forceReleaseModifier Key.shiftR (forceReleaseModifier Key.shiftL s)) with lastShiftTapAt := 0 } := by
  obtain ⟨he, h1, h2⟩ := h
  simp [handleShiftDoubleTap, he, h1, h2]

theorem doubleTap_nofire_eq (now : ℚ) (s : QB) (he : s.doubleShiftEnabled = true)
    (h : ¬(s.lastShiftTapAt > 0 ∧ (now - s.lastShiftTapAt) * 1000 ≤ s.doubleShiftTimeoutMs)) :
    handleShiftDoubleTap now s = { s with lastShiftTapAt := now } := by
  simp [handleShiftDoubleTap, he, h]

theorem doubleTap_disabled_eq (now : ℚ) (s : QB) (he : s.doubleShiftEnabled = false) :
    handleShiftDoubleTap now s = { s with lastShiftTapAt := 0 } := by
  simp [handleShiftDoubleTap, he]

theorem doubleTap_fires_mods_shiftL (now : ℚ) (s : QB) (h : doubleTapFires s now) :
    (handleShiftDoubleTap now s).mods Key.shiftL =
      { pressed := false, latched := false, usedInCombo := false } := by
  rw [doubleTap_fires_eq now s h]
  show (emitShortcut _ _).mods Key.shiftL = _
  rw [emitShortcut_mods]
  rw [forceRelease_mods_ne Key.shiftR _ (by decide), forceRelease_mods_self]

theorem doubleTap_fires_mods_shiftR (now : ℚ) (s : QB) (h : doubleTapFires s now) :
    (handleShiftDoubleTap now s).mods Key.shiftR =
      { pressed := false, latched := false, usedInCombo := false } := by
  rw [doubleTap_fires_eq now s h]
  show (emitShortcut _ _).mods Key.shiftR = _
  rw [emitShortcut_mods]
  rw [forceRelease_mods_self]

theorem doubleTap_fires_emits (now : ℚ) (s : QB) (h : doubleTapFires s now) :
    (handleShiftDoubleTap now s).shortcutEmits = s.shortcutEmits + 1 := by
  rw [doubleTap_fires_eq now s h]
  show (emitShortcut _ _).shortcutEmits = _
  rw [emitShortcut_shortcutEmits]
  simp

theorem doubleTap_fires_last (now : ℚ) (s : QB) (h : doubleTapFires s now) :
    (handleShiftDoubleTap now s).lastShiftTapAt = 0 := by
  rw [doubleTap_fires_eq now s h]

theorem doubleTap_enabled (now : ℚ) (s : QB) :
    (handleShiftDoubleTap now s).doubleShiftEnabled = s.doubleShiftEnabled := by
  unfold handleShiftDoubleTap
  split
  · rfl
  · split
    · show (emitShortcut _ _).doubleShiftEnabled = _
      rw [emitShortcut_enabled]
      simp
    · rfl

theorem doubleTap_mods_nonshift (now : ℚ) (s : QB) {k : Key}
    (h1 : k ≠ Key.shiftL) (h2 : k ≠ Key.shiftR) :
    (handleShiftDoubleTap now s).mods k = s.mods k := by
  unfold handleShiftDoubleTap
  split
  · rfl
  · split
    · show (emitShortcut _ _).mods k = _
      rw [emitShortcut_mods]
      rw [forceRelease_mods_ne Key.shiftR _ h2, forceRelease_mods_ne Key.shiftL _ h1]
    · rfl

theorem doubleTap_emits_nofire (now : ℚ) (s : QB) (h : ¬ doubleTapFires s now) :
    (handleShiftDoubleTap now s).shortcutEmits = s.shortcutEmits := by
  unfold handleShiftDoubleTap
  rcases he : s.doubleShiftEnabled with _ | _
  · simp
  · have h2 : ¬(s.lastShiftTapAt > 0 ∧ (now - s.lastShiftTapAt) * 1000 ≤ s.doubleShiftTimeoutMs) :=
      fun hh => h ⟨he, hh.1, hh.2⟩
    simp [h2]

theorem oppositeShift_ne (k : Key) : oppositeShift k ≠ k := by
  unfold oppositeShift
  split
  · rename_i hk
    rw [hk]
    decide
  · rename_i hk
    exact fun hh => hk hh.symm

theorem pressGlobal_mods_self (k : Key) (s : QB) :
    (onModifierPressGlobal k s).mods k =
      { s.mods k with pressed := true, usedInCombo := false } := by
  unfold onModifierPressGlobal
  rw [paintModifier_mods, setKeyState_mods]
  split
  · rw [forceRelease_mods_ne (oppositeShift k) _ (oppositeShift_ne k).symm, setMod_mods_self]
  · rw [setMod_mods_self]

theorem pressGlobal_mods_opp (k : Key) (s : QB) (hs : isShift k = true) :
    (onModifierPressGlobal k s).mods (oppositeShift k) =
      { pressed := false, latched := false, usedInCombo := false } := by
  unfold onModifierPressGlobal
  rw [paintModifier_mods, setKeyState_mods]
  rw [if_pos hs, forceRelease_mods_self]

theorem pressGlobal_mods_other (k : Key) (s : QB) {k2 : Key}
    (h1 : k2 ≠ k) (h2 : k2 ≠ oppositeShift k) :
    (onModifierPressGlobal k s).mods k2 = s.mods k2 := by
  unfold onModifierPressGlobal
  rw [paintModifier_mods, setKeyState_mods]
  split
  · rw [forceRelease_mods_ne (oppositeShift k) _ h2, setMod_mods_ne _ _ h1]
  · rw [setMod_mods_ne _ _ h1]

@[simp] theorem pressGlobal_down_self (k : Key) (s : QB) :
    (onModifierPressGlobal k s).downKeys k = true := by
  unfold onModifierPressGlobal
  rw [paintModifier_downKeys, setKeyState_down_self]

@[simp] theorem pressGlobal_lastShiftTapAt (k : Key) (s : QB) :
    (onModifierPressGlobal k s).lastShiftTapAt = s.lastShiftTapAt := by
  unfold onModifierPressGlobal
  rw [paintModifier_lastShiftTapAt, setKeyState_lastShiftTapAt]
  split
  · rw [forceRelease_lastShiftTapAt]
    rfl
  · rfl

@[simp] theorem pressGlobal_shortcutEmits (k : Key) (s : QB) :
    (onModifierPressGlobal k s).shortcutEmits = s.shortcutEmits := by
  unfold onModifierPressGlobal
  rw [paintModifier_shortcutEmits, setKeyState_shortcutEmits]
  split
  · rw [forceRelease_shortcutEmits]
    rfl
  · rfl

@[simp] theorem pressGlobal_enabled (k : Key) (s : QB) :
    (onModifierPressGlobal k s).doubleShiftEnabled = s.doubleShiftEnabled := by
  unfold onModifierPressGlobal
  rw [paintModifier_enabled, setKeyState_enabled]
  split
  · rw [forceRelease_enabled]
    rfl
  · rfl

@[simp] theorem pressGlobal_timeout (k : Key) (s : QB) :
    (onModifierPressGlobal k s).doubleShiftTimeoutMs = s.doubleShiftTimeoutMs := by
  unfold onModifierPressGlobal
  rw [paintModifier_timeout, setKeyState_timeout]
  split
  · rw [forceRelease_timeout]
    rfl
  · rfl

theorem pressGlobal_events_exclusive (k : Key) (s : QB) (hs : isShift k = true)
    (hB : s.downKeys (oppositeShift k) = true) (hA : s.downKeys k = false) :
    (onModifierPressGlobal k s).events =
      s.events ++ [Ev.keyUp (oppositeShift k), Ev.keyDown k] := by
  unfold onModifierPressGlobal
  rw [paintModifier_events, if_pos hs]
  have hAf : (forceReleaseModifier (oppositeShift k)
      (setMod s k { s.mods k with pressed := true, usedInCombo := false })).downKeys k = false := by
    rw [forceRelease_down_ne _ _ (oppositeShift_ne k).symm]
    exact hA
  rw [setKeyState_events_press _ _ hAf]
  rw [forceRelease_events_ifdown _ _
    (show (setMod s k { s.mods k with pressed := true, usedInCombo := false }).downKeys
        (oppositeShift k) = true from hB)]
  show s.events ++ [Ev.keyUp (oppositeShift k)] ++ [Ev.keyDown k] = _
  rw [List.append_assoc]
  rfl

/-- The "clean tap" (no combo) branch body of
`_on_modifier_release_global`: clear `pressed`, toggle the latch and
update the physical/visual state accordingly. -/
def cleanToggled (k : Key) (s : QB) : QB :=
  let s1 := setMod s k { s.mods k with pressed := false }
  if (s.mods k).latched then
    paintModifier k false (setKeyState k false (setMod s1 k { s1.mods k with latched := false }))
  else
    paintModifier k true (setMod s1 k { s1.mods k with latched := true })

theorem releaseGlobal_clean_eq (now : ℚ) (k : Key) (s : QB)
    (h : (s.mods k).usedInCombo = false) :
    onModifierReleaseGlobal now k s =
      if isShift k then handleShiftDoubleTap now (cleanToggled k s) else cleanToggled k s := by
  simp only [onModifierReleaseGlobal, cleanToggled, h]
  simp

theorem releaseGlobal_combo_eq (now : ℚ) (k : Key) (s : QB)
    (h : (s.mods k).usedInCombo = true) :
    onModifierReleaseGlobal now k s =
      (let s1 := setMod s k { s.mods k with pressed := false }
       let s2 := if !(s.mods k).latched then paintModifier k false (setKeyState k false s1) else s1
       setMod s2 k { s2.mods k with usedInCombo := false }) := by
  simp only [onModifierReleaseGlobal, h]
  simp

theorem cleanToggled_mods_self (k : Key) (s : QB) :
    (cleanToggled k s).mods k =
      { pressed := false, latched := !(s.mods k).latched,
        usedInCombo := (s.mods k).usedInCombo } := by
  unfold cleanToggled
  split
  · rename_i hl
    rw [paintModifier_mods, setKeyState_mods, setMod_mods_self, hl]
    rw [setMod_mods_self]
    simp
  · rename_i hl
    rw [paintModifier_mods, setMod_mods_self]
    rw [setMod_mods_self]
    simp at hl
    rw [hl]
    simp

theorem cleanToggled_mods_ne (k : Key) (s : QB) {k2 : Key} (h : k2 ≠ k) :
    (cleanToggled k s).mods k2 = s.mods k2 := by
  unfold cleanToggled
  split
  · rw [paintModifier_mods, setKeyState_mods, setMod_mods_ne _ _ h, setMod_mods_ne _ _ h]
  · rw [paintModifier_mods, setMod_mods_ne _ _ h, setMod_mods_ne _ _ h]

@[simp] theorem cleanToggled_lastShiftTapAt (k : Key) (s : QB) :
    (cleanToggled k s).lastShiftTapAt = s.lastShiftTapAt := by
  unfold cleanToggled
  split
  · rw [paintModifier_lastShiftTapAt, setKeyState_lastShiftTapAt]
    rfl
  · rw [paintModifier_lastShiftTapAt]
    rfl

@[simp] theorem cleanToggled_shortcutEmits (k : Key) (s : QB) :
    (cleanToggled k s).shortcutEmits = s.shortcutEmits := by
  unfold cleanToggled
  split
  · rw [paintModifier_shortcutEmits, setKeyState_shortcutEmits]
    rfl
  · rw [paintModifier_shortcutEmits]
    rfl

@[simp] theorem cleanToggled_enabled (k : Key) (s : QB) :
    (cleanToggled k s).doubleShiftEnabled = s.doubleShiftEnabled := by
  unfold cleanToggled
  split
  · rw [paintModifier_enabled, setKeyState_enabled]
    rfl
  · rw [paintModifier_enabled]
    rfl

@[simp] theorem cleanToggled_timeout (k : Key) (s : QB) :
    (cleanToggled k s).doubleShiftTimeoutMs = s.doubleShiftTimeoutMs := by
  unfold cleanToggled
  split
  · rw [paintModifier_timeout, setKeyState_timeout]
    rfl
  · rw [paintModifier_timeout]
    rfl

theorem doubleTapFires_cleanToggled (k : Key) (s : QB) (now : ℚ) :
    doubleTapFires (cleanToggled k s) now ↔ doubleTapFires s now := by
  unfold doubleTapFires
  rw [cleanToggled_enabled, cleanToggled_lastShiftTapAt, cleanToggled_timeout]

theorem doubleTap_mods_nofire (now : ℚ) (s : QB) (h : ¬ doubleTapFires s now) :
    (handleShiftDoubleTap now s).mods = s.mods := by
  unfold handleShiftDoubleTap
  rcases he : s.doubleShiftEnabled with _ | _
  · simp
  · have h2 : ¬(s.lastShiftTapAt > 0 ∧ (now - s.lastShiftTapAt) * 1000 ≤ s.doubleShiftTimeoutMs) :=
      fun hh => h ⟨he, hh.1, hh.2⟩
    simp [h2]

theorem releaseGlobal_combo_last (now : ℚ) (k : Key) (s : QB)
    (h : (s.mods k).usedInCombo = true) :
    (onModifierReleaseGlobal now k s).lastShiftTapAt = s.lastShiftTapAt := by
  rw [releaseGlobal_combo_eq now k s h]
  rcases hl : (s.mods k).latched with _ | _ <;> simp [hl, setMod]

theorem releaseGlobal_combo_emits (now : ℚ) (k : Key) (s : QB)
    (h : (s.mods k).usedInCombo = true) :
    (onModifierReleaseGlobal now k s).shortcutEmits = s.shortcutEmits := by
  rw [releaseGlobal_combo_eq now k s h]
  rcases hl : (s.mods k).latched with _ | _ <;> simp [hl, setMod]

/-- One press-and-release cycle of a modifier with no
`notify_other_key_pressed` in between. -/
def tapCycle (now : ℚ) (k : Key) (s : QB) : QB :=
  onModifierReleaseGlobal now k (onModifierPressGlobal k s)

/-! ### Claim C1 -/

/-- A state in which the right Ctrl modifier is physically held. -/
def qbC1cex : QB :=
  { emptyQB with mods := fun k => if k = Key.ctrlR then
      { pressed := true, latched := false, usedInCombo := false } else {} }

/-- C1, counterexample: the claim asserts the exclusivity rule for every
left/right pair including Ctrl, but pressing Ctrl_L while Ctrl_R is held
leaves Ctrl_R fully held — the source only force-releases the opposite
key for the two Shift keys. -/
theorem c1_counterexample_ctrl_pair :
    (qbC1cex.mods Key.ctrlR).pressed = true ∧
    ¬(((onModifierPressGlobal Key.ctrlL qbC1cex).mods Key.ctrlR).pressed = false) := by
  decide

/-- C1 (amended): only for the Shift pair does `press(A)` force the
opposite instance `B` fully inactive (held, latched, combo-used all
cleared), with the physical release of `B` emitted before the physical
press of `A`. -/
theorem c1_press_shift_exclusive (s : QB) (a : Key) (hs : isShift a = true) :
    (onModifierPressGlobal a s).mods (oppositeShift a) =
        { pressed := false, latched := false, usedInCombo := false } ∧
    ((onModifierPressGlobal a s).mods a).pressed = true ∧
    (s.downKeys (oppositeShift a) = true → s.downKeys a = false →
      (onModifierPressGlobal a s).events =
        s.events ++ [Ev.keyUp (oppositeShift a), Ev.keyDown a]) := by
  refine ⟨pressGlobal_mods_opp a s hs, ?_, fun hB hA => pressGlobal_events_exclusive a s hs hB hA⟩
  rw [pressGlobal_mods_self]

/-- A state in which the right Shift modifier is held, latched and
physically down. -/
def qbC1wit : QB :=
  { emptyQB with
      mods := fun k => if k = Key.shiftR then
        { pressed := true, latched := true, usedInCombo := false } else {},
      downKeys := fun k => decide (k = Key.shiftR) }

/-- C1, witness: pressing Shift_L while Shift_R is held and latched. -/
theorem c1_witness :
    (onModifierPressGlobal Key.shiftL qbC1wit).mods (oppositeShift Key.shiftL) =
        { pressed := false, latched := false, usedInCombo := false } ∧
    ((onModifierPressGlobal Key.shiftL qbC1wit).mods Key.shiftL).pressed = true ∧
    (onModifierPressGlobal Key.shiftL qbC1wit).events =
      qbC1wit.events ++ [Ev.keyUp (oppositeShift Key.shiftL), Ev.keyDown Key.shiftL] := by
  obtain ⟨h1, h2, h3⟩ := c1_press_shift_exclusive qbC1wit Key.shiftL (by decide)
  exact ⟨h1, h2, h3 (by decide) (by decide)⟩

/-! ### Claim C2 -/

/-- A state in which Shift_L is held and was used in a combo, with a
recorded earlier tap time. -/
def qbC2cex : QB :=
  { emptyQB with
      mods := fun k => if k = Key.shiftL then
        { pressed := true, latched := false, usedInCombo := true } else {},
      lastShiftTapAt := 5 }

/-- C2, counterexample: a Shift release with `combo_used` true returns
from the combo branch before the double-tap handler is called, so the
detector state `last_tap_time` is neither updated to the release time
nor consumed — contradicting "notify ... regardless of which release
branch is taken". -/
theorem c2_counterexample_combo_release :
    (qbC2cex.mods Key.shiftL).usedInCombo = true ∧
    (onModifierReleaseGlobal 6 Key.shiftL qbC2cex).lastShiftTapAt = 5 ∧
    ¬((onModifierReleaseGlobal 6 Key.shiftL qbC2cex).lastShiftTapAt = 6 ∨
      (onModifierReleaseGlobal 6 Key.shiftL qbC2cex).lastShiftTapAt = 0) := by
  have h5 : (onModifierReleaseGlobal 6 Key.shiftL qbC2cex).lastShiftTapAt = 5 := by
    rw [releaseGlobal_combo_last 6 Key.shiftL qbC2cex (by decide)]
    rfl
  refine ⟨by decide, h5, ?_⟩
  rw [h5]
  rintro (h | h) <;> norm_num at h

/-- C2 (amended): a Shift release notifies the double-tap detector only
when the clean-tap branch is taken (`combo_used` false at release time);
a combo release returns early and leaves `last_tap_time` unchanged. -/
theorem c2_release_notifies_only_clean (s : QB) (now : ℚ) (k : Key)
    (hs : isShift k = true) :
    ((s.mods k).usedInCombo = false →
      (onModifierReleaseGlobal now k s).lastShiftTapAt =
        (if s.doubleShiftEnabled = false then 0
         else if s.lastShiftTapAt > 0 ∧
             (now - s.lastShiftTapAt) * 1000 ≤ s.doubleShiftTimeoutMs then 0
         else now)) ∧
    ((s.mods k).usedInCombo = true →
      (onModifierReleaseGlobal now k s).lastShiftTapAt = s.lastShiftTapAt) := by
  constructor
  · intro h
    rw [releaseGlobal_clean_eq now k s h, if_pos hs]
    rcases he : s.doubleShiftEnabled with _ | _
    · rw [doubleTap_disabled_eq _ _ (by rw [cleanToggled_enabled]; exact he)]
      simp [he]
    · by_cases hf : s.lastShiftTapAt > 0 ∧ (now - s.lastShiftTapAt) * 1000 ≤ s.doubleShiftTimeoutMs
      · have hfire : doubleTapFires (cleanToggled k s) now := by
          rw [doubleTapFires_cleanToggled]
          exact ⟨he, hf.1, hf.2⟩
        rw [doubleTap_fires_last _ _ hfire]
        simp [he, hf]
      · rw [doubleTap_nofire_eq _ _ (by rw [cleanToggled_enabled]; exact he)
            (by rw [cleanToggled_lastShiftTapAt, cleanToggled_timeout]; exact hf)]
        simp [he, hf]
  · exact releaseGlobal_combo_last now k s

/-- C2, witness: a clean (no-combo) Shift_L release from the quiescent
state records the release time. -/
theorem c2_witness :
    (onModifierReleaseGlobal 3 Key.shiftL emptyQB).lastShiftTapAt =
        (if emptyQB.doubleShiftEnabled = false then 0
         else if emptyQB.lastShiftTapAt > 0 ∧
             ((3 : ℚ) - emptyQB.lastShiftTapAt) * 1000 ≤ emptyQB.doubleShiftTimeoutMs then 0
         else 3) ∧
    ((qbC2cex.mods Key.shiftL).usedInCombo = true →
      (onModifierReleaseGlobal 6 Key.shiftL qbC2cex).lastShiftTapAt = qbC2cex.lastShiftTapAt) := by
  refine ⟨(c2_release_notifies_only_clean emptyQB 3 Key.shiftL (by decide)).1 (by decide),
    (c2_release_notifies_only_clean qbC2cex 6 Key.shiftL (by decide)).2⟩

/-! ### Claim C3 -/

/-- C3: a qualifying Shift release strictly inside the timeout window of
the previous qualifying release emits exactly one shortcut combination,
force-releases both Shift instances (clearing any latch) and resets the
recorded tap time to zero, so that a third rapid tap-cycle emits no
second shortcut and merely starts a fresh single-tap window. -/
theorem c3_double_tap_shortcut (s : QB) (now now2 : ℚ)
    (he : s.doubleShiftEnabled = true)
    (hu : (s.mods Key.shiftL).usedInCombo = false)
    (h1 : s.lastShiftTapAt > 0)
    (h2 : (now - s.lastShiftTapAt) * 1000 < s.doubleShiftTimeoutMs) :
    (onModifierReleaseGlobal now Key.shiftL s).shortcutEmits = s.shortcutEmits + 1 ∧
    (onModifierReleaseGlobal now Key.shiftL s).mods Key.shiftL =
        { pressed := false, latched := false, usedInCombo := false } ∧
    (onModifierReleaseGlobal now Key.shiftL s).mods Key.shiftR =
        { pressed := false, latched := false, usedInCombo := false } ∧
    (onModifierReleaseGlobal now Key.shiftL s).lastShiftTapAt = 0 ∧
    (onModifierReleaseGlobal now2 Key.shiftL
        (onModifierPressGlobal Key.shiftL (onModifierReleaseGlobal now Key.shiftL s))).shortcutEmits =
      (onModifierReleaseGlobal now Key.shiftL s).shortcutEmits ∧
    (onModifierReleaseGlobal now2 Key.shiftL
        (onModifierPressGlobal Key.shiftL (onModifierReleaseGlobal now Key.shiftL s))).lastShiftTapAt =
      now2 := by
  have hrel : onModifierReleaseGlobal now Key.shiftL s =
      handleShiftDoubleTap now (cleanToggled Key.shiftL s) := by
    rw [releaseGlobal_clean_eq now Key.shiftL s hu, if_pos (by decide : isShift Key.shiftL = true)]
  have hfire : doubleTapFires (cleanToggled Key.shiftL s) now := by
    rw [doubleTapFires_cleanToggled]
    exact ⟨he, h1, le_of_lt h2⟩
  have hemits : (onModifierReleaseGlobal now Key.shiftL s).shortcutEmits = s.shortcutEmits + 1 := by
    rw [hrel, doubleTap_fires_emits _ _ hfire, cleanToggled_shortcutEmits]
  have hmodsL : (onModifierReleaseGlobal now Key.shiftL s).mods Key.shiftL =
      { pressed := false, latched := false, usedInCombo := false } := by
    rw [hrel]
    exact doubleTap_fires_mods_shiftL _ _ hfire
  have hmodsR : (onModifierReleaseGlobal now Key.shiftL s).mods Key.shiftR =
      { pressed := false, latched := false, usedInCombo := false } := by
    rw [hrel]
    exact doubleTap_fires_mods_shiftR _ _ hfire
  have hlast : (onModifierReleaseGlobal now Key.shiftL s).lastShiftTapAt = 0 := by
    rw [hrel]
    exact doubleTap_fires_last _ _ hfire
  have henab : (onModifierReleaseGlobal now Key.shiftL s).doubleShiftEnabled = true := by
    rw [hrel, doubleTap_enabled, cleanToggled_enabled, he]
  -- the third rapid tap
  set s2 := onModifierReleaseGlobal now Key.shiftL s with hs2
  have hu3 : ((onModifierPressGlobal Key.shiftL s2).mods Key.shiftL).usedInCombo = false := by
    rw [pressGlobal_mods_self]
  have hlast3 : (onModifierPressGlobal Key.shiftL s2).lastShiftTapAt = 0 := by
    rw [pressGlobal_lastShiftTapAt, hlast]
  have hrel3 : onModifierReleaseGlobal now2 Key.shiftL (onModifierPressGlobal Key.shiftL s2) =
      handleShiftDoubleTap now2 (cleanToggled Key.shiftL (onModifierPressGlobal Key.shiftL s2)) := by
    rw [releaseGlobal_clean_eq now2 Key.shiftL _ hu3, if_pos (by decide : isShift Key.shiftL = true)]
  have hnof3 : ¬((cleanToggled Key.shiftL (onModifierPressGlobal Key.shiftL s2)).lastShiftTapAt > 0 ∧
      (now2 - (cleanToggled Key.shiftL (onModifierPressGlobal Key.shiftL s2)).lastShiftTapAt) * 1000 ≤
        (cleanToggled Key.shiftL (onModifierPressGlobal Key.shiftL s2)).doubleShiftTimeoutMs) := by
    rw [cleanToggled_lastShiftTapAt, hlast3]
    exact fun hh => lt_irrefl 0 hh.1
  have henab3 : (cleanToggled Key.shiftL (onModifierPressGlobal Key.shiftL s2)).doubleShiftEnabled = true := by
    rw [cleanToggled_enabled, pressGlobal_enabled, henab]
  have hfin : onModifierReleaseGlobal now2 Key.shiftL (onModifierPressGlobal Key.shiftL s2) =
      { cleanToggled Key.shiftL (onModifierPressGlobal Key.shiftL s2) with lastShiftTapAt := now2 } := by
    rw [hrel3, doubleTap_nofire_eq _ _ henab3 hnof3]
  refine ⟨hemits, hmodsL, hmodsR, hlast, ?_, ?_⟩
  · rw [hfin]
    show (cleanToggled Key.shiftL (onModifierPressGlobal Key.shiftL s2)).shortcutEmits = _
    rw [cleanToggled_shortcutEmits, pressGlobal_shortcutEmits]
  · rw [hfin]

/-- A quiescent state with an earlier qualifying Shift tap on record. -/
def qbC3wit : QB := { emptyQB with lastShiftTapAt := 1 }

/-- C3, witness: a second clean Shift release at the same monotonic
second 1 (elapsed 0 ms, strictly inside the 380 ms window), followed by
a third tap-cycle at second 5. -/
theorem c3_witness :
    (onModifierReleaseGlobal 1 Key.shiftL qbC3wit).shortcutEmits = qbC3wit.shortcutEmits + 1 ∧
    (onModifierReleaseGlobal 1 Key.shiftL qbC3wit).mods Key.shiftL =
        { pressed := false, latched := false, usedInCombo := false } ∧
    (onModifierReleaseGlobal 1 Key.shiftL qbC3wit).mods Key.shiftR =
        { pressed := false, latched := false, usedInCombo := false } ∧
    (onModifierReleaseGlobal 1 Key.shiftL qbC3wit).lastShiftTapAt = 0 ∧
    (onModifierReleaseGlobal 5 Key.shiftL
        (onModifierPressGlobal Key.shiftL (onModifierReleaseGlobal 1 Key.shiftL qbC3wit))).shortcutEmits =
      (onModifierReleaseGlobal 1 Key.shiftL qbC3wit).shortcutEmits ∧
    (onModifierReleaseGlobal 5 Key.shiftL
        (onModifierPressGlobal Key.shiftL (onModifierReleaseGlobal 1 Key.shiftL qbC3wit))).lastShiftTapAt =
      (5 : ℚ) :=
  c3_double_tap_shortcut qbC3wit 1 5 rfl rfl
    (by show (0 : ℚ) < 1; norm_num)
    (by show ((1 : ℚ) - 1) * 1000 < 380; norm_num)

/-! ### Claim C4 -/

/-- A quiescent state with a recorded Shift tap at second 1 and
Shift_L unlatched. -/
def qbC4cex : QB := { emptyQB with lastShiftTapAt := 1 }

/-- C4, counterexample: the claim asserts the latch flip for every
starting state, but when the clean release completes a double-Shift tap
(previous tap on record, inside the window) the handler force-releases
both Shifts, so the latch ends up cleared instead of flipped. -/
theorem c4_counterexample_double_tap_clears_latch :
    (qbC4cex.mods Key.shiftL).latched = false ∧
    ¬(((tapCycle 1 Key.shiftL qbC4cex).mods Key.shiftL).latched =
        !(qbC4cex.mods Key.shiftL).latched) := by
  have hu : ((onModifierPressGlobal Key.shiftL qbC4cex).mods Key.shiftL).usedInCombo = false := by
    rw [pressGlobal_mods_self]
  have hfl : (tapCycle 1 Key.shiftL qbC4cex).mods Key.shiftL =
      { pressed := false, latched := false, usedInCombo := false } := by
    unfold tapCycle
    rw [releaseGlobal_clean_eq _ _ _ hu, if_pos (by decide : isShift Key.shiftL = true)]
    have hf : doubleTapFires
        (cleanToggled Key.shiftL (onModifierPressGlobal Key.shiftL qbC4cex)) 1 := by
      rw [doubleTapFires_cleanToggled]
      refine ⟨?_, ?_, ?_⟩
      · rw [pressGlobal_enabled]
        rfl
      · rw [pressGlobal_lastShiftTapAt]
        show (0 : ℚ) < 1
        norm_num
      · rw [pressGlobal_lastShiftTapAt, pressGlobal_timeout]
        show ((1 : ℚ) - 1) * 1000 ≤ 380
        norm_num
    exact doubleTap_fires_mods_shiftL _ _ hf
  rw [hfl]
  exact ⟨rfl, by decide⟩

/-- C4 (amended): for every modifier, a press-release cycle with no
intervening `notify_other_key_pressed` leaves `held` false and flips
`latched` — provided that (for a Shift key) the release does not
complete a double-Shift tap; a completing release clears the latch via
the forced release of both Shifts instead. -/
theorem c4_clean_tap_toggles_latch (s : QB) (now : ℚ) (k : Key)
    (hm : isModifier k = true)
    (hnf : isShift k = true → ¬ doubleTapFires s now) :
    ((tapCycle now k s).mods k).pressed = false ∧
    ((tapCycle now k s).mods k).latched = !(s.mods k).latched := by
  have hu : ((onModifierPressGlobal k s).mods k).usedInCombo = false := by
    rw [pressGlobal_mods_self]
  have hlat : ((onModifierPressGlobal k s).mods k).latched = (s.mods k).latched := by
    rw [pressGlobal_mods_self]
  have hclean : (cleanToggled k (onModifierPressGlobal k s)).mods k =
      { pressed := false, latched := !(s.mods k).latched, usedInCombo := false } := by
    rw [cleanToggled_mods_self, hlat, hu]
  unfold tapCycle
  rw [releaseGlobal_clean_eq now k _ hu]
  rcases hsh : isShift k with _ | _
  · simp only [Bool.false_eq_true, if_false]
    rw [hclean]
    exact ⟨rfl, rfl⟩
  · simp only [if_true]
    have hnf2 : ¬ doubleTapFires (cleanToggled k (onModifierPressGlobal k s)) now := by
      rw [doubleTapFires_cleanToggled]
      intro hh
      apply hnf hsh
      obtain ⟨a, b, c⟩ := hh
      rw [pressGlobal_enabled] at a
      rw [pressGlobal_lastShiftTapAt] at b c
      rw [pressGlobal_timeout] at c
      exact ⟨a, b, c⟩
    rw [doubleTap_mods_nofire _ _ hnf2, hclean]
    exact ⟨rfl, rfl⟩

/-- C4, witness: a clean Ctrl_L tap-cycle from the quiescent state
latches the modifier; `held` ends false. -/
theorem c4_witness :
    ((tapCycle 5 Key.ctrlL emptyQB).mods Key.ctrlL).pressed = false ∧
    ((tapCycle 5 Key.ctrlL emptyQB).mods Key.ctrlL).latched = !(emptyQB.mods Key.ctrlL).latched :=
  c4_clean_tap_toggles_latch emptyQB 5 Key.ctrlL (by decide) (fun h => absurd h (by decide))

/-! ### Claim C10 -/

/-- C10: for every non-negative speed (speed is a displacement magnitude
divided by an elapsed time clamped to at least 0.001 s, hence
non-negative), the step threshold lies in [12, 28] and equals the
unclamped expression `28 - min(speed/120, 16)` — the 8.0 lower clamp is
never the binding constraint. -/
theorem c10_step_threshold_bounds (speed : ℚ) (h : 0 ≤ speed) :
    12 ≤ stepThreshold speed ∧ stepThreshold speed ≤ 28 ∧
    stepThreshold speed = 28 - min (speed / 120) 16 := by
  have h0 : (0 : ℚ) ≤ speed / 120 := by positivity
  have hmin0 : (0 : ℚ) ≤ min (speed / 120) 16 := le_min h0 (by norm_num)
  have hmin16 : min (speed / 120) 16 ≤ 16 := min_le_right _ _
  have h8 : (8 : ℚ) ≤ 28 - min (speed / 120) 16 := by linarith
  have heq : stepThreshold speed = 28 - min (speed / 120) 16 := by
    unfold stepThreshold
    exact max_eq_right h8
  refine ⟨?_, ?_, heq⟩
  · rw [heq]; linarith
  · rw [heq]; linarith

/-- C10, witness: at speed 0 the threshold is the maximal 28. -/
theorem c10_witness :
    12 ≤ stepThreshold 0 ∧ stepThreshold 0 ≤ 28 ∧
    stepThreshold 0 = 28 - min ((0 : ℚ) / 120) 16 :=
  c10_step_threshold_bounds 0 le_rfl

/-! ### Claim C8 -/

theorem steps_bounds (θ x : ℚ) (hθ : 0 < θ) (hx : 0 ≤ x) :
    θ * (((Int.floor (x / θ)).toNat : ℕ) : ℚ) ≤ x ∧
    x < θ * (((Int.floor (x / θ)).toNat : ℕ) : ℚ) + θ := by
  have hq : (0 : ℚ) ≤ x / θ := div_nonneg hx (le_of_lt hθ)
  have hfl0 : 0 ≤ ⌊x / θ⌋ := Int.floor_nonneg.mpr hq
  have hNZ : (((⌊x / θ⌋).toNat : ℕ) : ℤ) = ⌊x / θ⌋ := Int.toNat_of_nonneg hfl0
  have hN : (((⌊x / θ⌋).toNat : ℕ) : ℚ) = ((⌊x / θ⌋ : ℤ) : ℚ) := by exact_mod_cast hNZ
  have h1 : ((⌊x / θ⌋ : ℤ) : ℚ) ≤ x / θ := Int.floor_le _
  have h2 : x / θ < ((⌊x / θ⌋ : ℤ) : ℚ) + 1 := Int.lt_floor_add_one _
  have hxx : x / θ * θ = x := div_mul_cancel₀ x (ne_of_gt hθ)
  constructor
  · rw [hN]
    nlinarith [mul_le_mul_of_nonneg_right h1 (le_of_lt hθ)]
  · rw [hN]
    nlinarith [mul_lt_mul_of_pos_right h2 hθ]

theorem emit_subthreshold (θ ax ay : ℚ) (hθ : 0 < θ) (hxy : |ay| ≤ |ax|) (hsub : |ax| < θ) :
    emitCursorMoves θ ax ay = { taps := [], accumX := ax, accumY := ay } := by
  have hfl : ⌊|ax| / θ⌋ = 0 := by
    rw [Int.floor_eq_zero_iff]
    constructor
    · exact div_nonneg (abs_nonneg _) (le_of_lt hθ)
    · rw [div_lt_one hθ]
      exact hsub
  unfold emitCursorMoves
  rw [if_pos hxy, hfl]
  simp

theorem emit_x_eq (θ ax ay : ℚ) (hcond : |ay| ≤ |ax|) :
    emitCursorMoves θ ax ay =
      if 0 < (Int.floor (|ax| / θ)).toNat then
        { taps := List.replicate (Int.floor (|ax| / θ)).toNat
            (if ax > 0 then Key.arrowRight else Key.arrowLeft),
          accumX := ax - (if ax > 0 then θ * ((Int.floor (|ax| / θ)).toNat : ℚ)
            else -(θ * ((Int.floor (|ax| / θ)).toNat : ℚ))),
          accumY := 0 }
      else { taps := [], accumX := ax, accumY := ay } := by
  unfold emitCursorMoves
  rw [if_pos hcond]

theorem emit_y_eq (θ ax ay : ℚ) (hcond : ¬(|ay| ≤ |ax|)) :
    emitCursorMoves θ ax ay =
      if 0 < (Int.floor (|ay| / θ)).toNat then
        { taps := List.replicate (Int.floor (|ay| / θ)).toNat
            (if ay > 0 then Key.arrowDown else Key.arrowUp),
          accumX := 0,
          accumY := ay - (if ay > 0 then θ * ((Int.floor (|ay| / θ)).toNat : ℚ)
            else -(θ * ((Int.floor (|ay| / θ)).toNat : ℚ))) }
      else { taps := [], accumX := ax, accumY := ay } := by
  unfold emitCursorMoves
  rw [if_neg hcond]

theorem emitCursorMoves_x_nonneg (θ ax : ℚ) (hθ : 0 < θ) (hax : 0 ≤ ax) :
    (emitCursorMoves θ ax 0).accumY = 0 ∧
    0 ≤ (emitCursorMoves θ ax 0).accumX ∧
    (emitCursorMoves θ ax 0).accumX < θ ∧
    (∀ k ∈ (emitCursorMoves θ ax 0).taps, k = Key.arrowRight) ∧
    θ * (((emitCursorMoves θ ax 0).taps.length : ℕ) : ℚ) + (emitCursorMoves θ ax 0).accumX = ax := by
  have habs : |ax| = ax := abs_of_nonneg hax
  have hcond : |(0 : ℚ)| ≤ |ax| := by rw [abs_zero]; exact abs_nonneg ax
  obtain ⟨hlo, hhi⟩ := steps_bounds θ ax hθ hax
  rw [emit_x_eq θ ax 0 hcond, habs]
  rcases hn : (Int.floor (ax / θ)).toNat with _ | n
  · rw [hn] at hlo hhi
    push_cast at hlo hhi
    norm_num
    exact ⟨hax, by linarith⟩
  · have haxpos : 0 < ax := by
      by_contra hc
      push_neg at hc
      have hax0 : ax = 0 := le_antisymm hc hax
      rw [hax0] at hn
      simp at hn
    rw [hn] at hlo hhi
    push_cast at hlo hhi
    rw [if_pos (Nat.zero_lt_succ n)]
    simp only [if_pos haxpos]
    refine ⟨trivial, ?_, ?_, ?_, ?_⟩
    · show (0 : ℚ) ≤ ax - θ * ((n + 1 : ℕ) : ℚ)
      push_cast
      linarith
    · show ax - θ * ((n + 1 : ℕ) : ℚ) < θ
      push_cast
      linarith
    · intro k hk
      exact List.eq_of_mem_replicate hk
    · show θ * ((List.replicate (n + 1) Key.arrowRight).length : ℚ) +
          (ax - θ * ((n + 1 : ℕ) : ℚ)) = ax
      rw [List.length_replicate]
      push_cast
      ring

theorem emitCursorMoves_x_nonpos (θ ax : ℚ) (hθ : 0 < θ) (hax : ax ≤ 0) :
    (emitCursorMoves θ ax 0).accumY = 0 ∧
    (emitCursorMoves θ ax 0).accumX ≤ 0 ∧
    -θ < (emitCursorMoves θ ax 0).accumX ∧
    (∀ k ∈ (emitCursorMoves θ ax 0).taps, k = Key.arrowLeft) ∧
    θ * (((emitCursorMoves θ ax 0).taps.length : ℕ) : ℚ) - (emitCursorMoves θ ax 0).accumX = -ax := by
  have habs : |ax| = -ax := abs_of_nonpos hax
  have hcond : |(0 : ℚ)| ≤ |ax| := by rw [abs_zero]; exact abs_nonneg ax
  obtain ⟨hlo, hhi⟩ := steps_bounds θ (-ax) hθ (by linarith)
  rw [emit_x_eq θ ax 0 hcond, habs]
  rcases hn : (Int.floor (-ax / θ)).toNat with _ | n
  · rw [hn] at hlo hhi
    push_cast at hlo hhi
    norm_num
    exact ⟨hax, by linarith⟩
  · have haxneg : ax < 0 := by
      by_contra hc
      push_neg at hc
      have hax0 : ax = 0 := le_antisymm hax hc
      rw [hax0] at hn
      simp at hn
    have hnotpos : ¬ ax > 0 := by linarith
    rw [hn] at hlo hhi
    push_cast at hlo hhi
    rw [if_pos (Nat.zero_lt_succ n)]
    simp only [if_neg hnotpos]
    refine ⟨trivial, ?_, ?_, ?_, ?_⟩
    · show ax - -(θ * ((n + 1 : ℕ) : ℚ)) ≤ 0
      push_cast
      linarith
    · show -θ < ax - -(θ * ((n + 1 : ℕ) : ℚ))
      push_cast
      linarith
    · intro k hk
      exact List.eq_of_mem_replicate hk
    · show θ * ((List.replicate (n + 1) Key.arrowLeft).length : ℚ) -
          (ax - -(θ * ((n + 1 : ℕ) : ℚ))) = -ax
      rw [List.length_replicate]
      push_cast
      ring

theorem motionRun_cons (θ d a ay : ℚ) (rest : List ℚ) :
    motionRun θ (d :: rest) a ay =
      { taps := (emitCursorMoves θ (a + d) ay).taps ++
          (motionRun θ rest (emitCursorMoves θ (a + d) ay).accumX
            (emitCursorMoves θ (a + d) ay).accumY).taps,
        accumX := (motionRun θ rest (emitCursorMoves θ (a + d) ay).accumX
          (emitCursorMoves θ (a + d) ay).accumY).accumX,
        accumY := (motionRun θ rest (emitCursorMoves θ (a + d) ay).accumX
          (emitCursorMoves θ (a + d) ay).accumY).accumY } := rfl

theorem motionRun_nonneg (θ : ℚ) (hθ : 0 < θ) :
    ∀ (ds : List ℚ), (∀ d ∈ ds, 0 ≤ d) → ∀ a : ℚ, 0 ≤ a → a < θ →
      (motionRun θ ds a 0).accumY = 0 ∧
      0 ≤ (motionRun θ ds a 0).accumX ∧
      (motionRun θ ds a 0).accumX < θ ∧
      (∀ k ∈ (motionRun θ ds a 0).taps, k = Key.arrowRight) ∧
      θ * ((motionRun θ ds a 0).taps.length : ℚ) + (motionRun θ ds a 0).accumX = a + ds.sum := by
  intro ds
  induction ds with
  | nil =>
    intro _ a ha0 haθ
    refine ⟨rfl, ha0, haθ, ?_, ?_⟩
    · intro k hk
      simp [motionRun] at hk
    · simp [motionRun]
  | cons d rest ih =>
    intro hds a ha0 haθ
    have hd0 : 0 ≤ d := hds d (List.mem_cons_self d rest)
    obtain ⟨hY, hX0, hXθ, htap1, hsum1⟩ := emitCursorMoves_x_nonneg θ (a + d) hθ (by linarith)
    obtain ⟨hY2, hX02, hXθ2, htap2, hsum2⟩ :=
      ih (fun d2 hd2 => hds d2 (List.mem_cons_of_mem d hd2))
        (emitCursorMoves θ (a + d) 0).accumX hX0 hXθ
    rw [motionRun_cons, hY]
    refine ⟨hY2, hX02, hXθ2, ?_, ?_⟩
    · intro k hk
      rcases List.mem_append.mp hk with h | h
      · exact htap1 k h
      · exact htap2 k h
    · show θ * (((emitCursorMoves θ (a + d) 0).taps ++
          (motionRun θ rest (emitCursorMoves θ (a + d) 0).accumX 0).taps).length : ℚ) +
          (motionRun θ rest (emitCursorMoves θ (a + d) 0).accumX 0).accumX = a + (d :: rest).sum
      rw [List.length_append, List.sum_cons]
      push_cast
      rw [mul_add]
      push_cast at hsum1 hsum2
      linarith

theorem motionRun_nonpos (θ : ℚ) (hθ : 0 < θ) :
    ∀ (ds : List ℚ), (∀ d ∈ ds, d ≤ 0) → ∀ a : ℚ, a ≤ 0 → -θ < a →
      (motionRun θ ds a 0).accumY = 0 ∧
      (motionRun θ ds a 0).accumX ≤ 0 ∧
      -θ < (motionRun θ ds a 0).accumX ∧
      (∀ k ∈ (motionRun θ ds a 0).taps, k = Key.arrowLeft) ∧
      θ * ((motionRun θ ds a 0).taps.length : ℚ) - (motionRun θ ds a 0).accumX = -a - ds.sum := by
  intro ds
  induction ds with
  | nil =>
    intro _ a ha0 haθ
    refine ⟨rfl, ha0, haθ, ?_, ?_⟩
    · intro k hk
      simp [motionRun] at hk
    · simp [motionRun]
  | cons d rest ih =>
    intro hds a ha0 haθ
    have hd0 : d ≤ 0 := hds d (List.mem_cons_self d rest)
    obtain ⟨hY, hX0, hXθ, htap1, hsum1⟩ := emitCursorMoves_x_nonpos θ (a + d) hθ (by linarith)
    obtain ⟨hY2, hX02, hXθ2, htap2, hsum2⟩ :=
      ih (fun d2 hd2 => hds d2 (List.mem_cons_of_mem d hd2))
        (emitCursorMoves θ (a + d) 0).accumX hX0 hXθ
    rw [motionRun_cons, hY]
    refine ⟨hY2, hX02, hXθ2, ?_, ?_⟩
    · intro k hk
      rcases List.mem_append.mp hk with h | h
      · exact htap1 k h
      · exact htap2 k h
    · show θ * (((emitCursorMoves θ (a + d) 0).taps ++
          (motionRun θ rest (emitCursorMoves θ (a + d) 0).accumX 0).taps).length : ℚ) -
          (motionRun θ rest (emitCursorMoves θ (a + d) 0).accumX 0).accumX = -a - (d :: rest).sum
      rw [List.length_append, List.sum_cons]
      push_cast
      rw [mul_add]
      push_cast at hsum1 hsum2
      linarith

/-- C8, counterexample: the claim asserts that on every post-seed motion
sample the non-dominant accumulator is reset to zero, but on a
sub-threshold sample (accumulated x 5, accumulated y 3, threshold 28)
the code takes the `steps == 0` path and leaves both accumulators
unchanged: accum_y stays 3. -/
theorem c8_counterexample_no_reset_below_threshold :
    (emitCursorMoves 28 5 3).accumY = 3 ∧ ¬((emitCursorMoves 28 5 3).accumY = 0) := by
  have habs3 : |(3 : ℚ)| = 3 := abs_of_nonneg (by norm_num)
  have habs5 : |(5 : ℚ)| = 5 := abs_of_nonneg (by norm_num)
  have h := emit_subthreshold 28 5 3 (by norm_num)
    (by rw [habs3, habs5]; norm_num) (by rw [habs5]; norm_num)
  rw [h]
  norm_num

/-- C8 (amended): on an x-dominant sample (ties included), taps go only
to the horizontal arrows, the emitted count is the floor of the
accumulated magnitude over the step threshold, a sample emitting
nothing leaves both accumulators unchanged, and a sample emitting at
least one tap zeroes the y accumulator and keeps exactly the
sub-threshold remainder of x; symmetrically, on a y-dominant sample
taps go only to the vertical arrows with the floor count of the y
magnitude, and an emitting sample zeroes the x accumulator and keeps
exactly the sub-threshold remainder of y.  A sample sequence whose
cumulative x displacement is exactly N thresholds (with y zero) yields
exactly N RIGHT taps — or N LEFT taps for the negative direction — and
no UP/DOWN taps. -/
theorem c8_cursor_steps :
    (∀ θ ax ay : ℚ, 0 < θ → |ay| ≤ |ax| →
      (∀ k ∈ (emitCursorMoves θ ax ay).taps, k = Key.arrowRight ∨ k = Key.arrowLeft) ∧
      (emitCursorMoves θ ax ay).taps.length = (Int.floor (|ax| / θ)).toNat ∧
      ((emitCursorMoves θ ax ay).taps = [] →
        (emitCursorMoves θ ax ay).accumX = ax ∧ (emitCursorMoves θ ax ay).accumY = ay) ∧
      ((emitCursorMoves θ ax ay).taps ≠ [] →
        (emitCursorMoves θ ax ay).accumY = 0 ∧
        |(emitCursorMoves θ ax ay).accumX| =
          |ax| - θ * (((emitCursorMoves θ ax ay).taps.length : ℕ) : ℚ))) ∧
    (∀ θ ax ay : ℚ, 0 < θ → |ax| < |ay| →
      (∀ k ∈ (emitCursorMoves θ ax ay).taps, k = Key.arrowDown ∨ k = Key.arrowUp) ∧
      (emitCursorMoves θ ax ay).taps.length = (Int.floor (|ay| / θ)).toNat ∧
      ((emitCursorMoves θ ax ay).taps = [] →
        (emitCursorMoves θ ax ay).accumX = ax ∧ (emitCursorMoves θ ax ay).accumY = ay) ∧
      ((emitCursorMoves θ ax ay).taps ≠ [] →
        (emitCursorMoves θ ax ay).accumX = 0 ∧
        |(emitCursorMoves θ ax ay).accumY| =
          |ay| - θ * (((emitCursorMoves θ ax ay).taps.length : ℕ) : ℚ))) ∧
    (∀ (θ : ℚ) (N : ℕ) (ds : List ℚ), 0 < θ → (∀ d ∈ ds, 0 ≤ d) → ds.sum = (N : ℚ) * θ →
      (motionRun θ ds 0 0).taps = List.replicate N Key.arrowRight) ∧
    (∀ (θ : ℚ) (N : ℕ) (ds : List ℚ), 0 < θ → (∀ d ∈ ds, d ≤ 0) → ds.sum = -((N : ℚ) * θ) →
      (motionRun θ ds 0 0).taps = List.replicate N Key.arrowLeft) := by
  refine ⟨?_, ?_, ?_, ?_⟩
  · intro θ ax ay hθ hcond
    rw [emit_x_eq θ ax ay hcond]
    obtain ⟨hlo, hhi⟩ := steps_bounds θ |ax| hθ (abs_nonneg ax)
    rcases hn : (Int.floor (|ax| / θ)).toNat with _ | n
    · rw [if_neg (by omega)]
      refine ⟨by intro k hk; simp at hk, rfl, fun _ => ⟨rfl, rfl⟩, fun hne => absurd rfl hne⟩
    · rw [hn] at hlo hhi
      rw [if_pos (Nat.zero_lt_succ n)]
      have haxne : ax ≠ 0 := by
        intro hc
        rw [hc] at hn
        simp at hn
      refine ⟨?_, by simp, ?_, ?_⟩
      · intro k hk
        have hk2 : k = (if ax > 0 then Key.arrowRight else Key.arrowLeft) :=
          List.eq_of_mem_replicate hk
        by_cases hax : ax > 0
        · left; rw [hk2, if_pos hax]
        · right; rw [hk2, if_neg hax]
      · intro hemp
        exact absurd hemp (by simp)
      · intro _
        refine ⟨rfl, ?_⟩
        show |ax - if ax > 0 then θ * ((n + 1 : ℕ) : ℚ) else -(θ * ((n + 1 : ℕ) : ℚ))| =
          |ax| - θ * (((List.replicate (n + 1) (if ax > 0 then Key.arrowRight else Key.arrowLeft)).length : ℕ) : ℚ)
        rw [List.length_replicate]
        by_cases hax : ax > 0
        · rw [if_pos hax, abs_of_nonneg (by rw [abs_of_nonneg (le_of_lt hax)] at hlo; push_cast at hlo ⊢; linarith),
            abs_of_nonneg (le_of_lt hax)]
        · have haxlt : ax < 0 := lt_of_le_of_ne (le_of_not_lt hax) haxne
          rw [if_neg hax, abs_of_nonpos (by rw [abs_of_nonpos (le_of_lt haxlt)] at hlo; push_cast at hlo ⊢; linarith),
            abs_of_nonpos (le_of_lt haxlt)]
          push_cast
          ring
  · intro θ ax ay hθ hcond
    rw [emit_y_eq θ ax ay (not_le.mpr hcond)]
    obtain ⟨hlo, hhi⟩ := steps_bounds θ |ay| hθ (abs_nonneg ay)
    rcases hn : (Int.floor (|ay| / θ)).toNat with _ | n
    · rw [if_neg (by omega)]
      refine ⟨by intro k hk; simp at hk, rfl, fun _ => ⟨rfl, rfl⟩, fun hne => absurd rfl hne⟩
    · rw [hn] at hlo hhi
      rw [if_pos (Nat.zero_lt_succ n)]
      have hayne : ay ≠ 0 := by
        intro hc
        rw [hc] at hn
        simp at hn
      refine ⟨?_, by simp, ?_, ?_⟩
      · intro k hk
        have hk2 : k = (if ay > 0 then Key.arrowDown else Key.arrowUp) :=
          List.eq_of_mem_replicate hk
        by_cases hay : ay > 0
        · left; rw [hk2, if_pos hay]
        · right; rw [hk2, if_neg hay]
      · intro hemp
        exact absurd hemp (by simp)
      · intro _
        refine ⟨rfl, ?_⟩
        show |ay - if ay > 0 then θ * ((n + 1 : ℕ) : ℚ) else -(θ * ((n + 1 : ℕ) : ℚ))| =
          |ay| - θ * (((List.replicate (n + 1) (if ay > 0 then Key.arrowDown else Key.arrowUp)).length : ℕ) : ℚ)
        rw [List.length_replicate]
        by_cases hay : ay > 0
        · rw [if_pos hay, abs_of_nonneg (by rw [abs_of_nonneg (le_of_lt hay)] at hlo; push_cast at hlo ⊢; linarith),
            abs_of_nonneg (le_of_lt hay)]
        · have haylt : ay < 0 := lt_of_le_of_ne (le_of_not_lt hay) hayne
          rw [if_neg hay, abs_of_nonpos (by rw [abs_of_nonpos (le_of_lt haylt)] at hlo; push_cast at hlo ⊢; linarith),
            abs_of_nonpos (le_of_lt haylt)]
          push_cast
          ring
  · intro θ N ds hθ hds hsum
    obtain ⟨hY, hX0, hXθ, htaps, hlen⟩ := motionRun_nonneg θ hθ ds hds 0 le_rfl hθ
    rw [hsum] at hlen
    have hrepl := List.eq_replicate_of_mem htaps
    have hlenN : (motionRun θ ds 0 0).taps.length = N := by
      have hle : (((motionRun θ ds 0 0).taps.length : ℕ) : ℚ) ≤ (N : ℚ) := by nlinarith
      have hlt : (N : ℚ) < (((motionRun θ ds 0 0).taps.length : ℕ) : ℚ) + 1 := by nlinarith
      have h1 : (motionRun θ ds 0 0).taps.length ≤ N := by exact_mod_cast hle
      have h2 : N < (motionRun θ ds 0 0).taps.length + 1 := by exact_mod_cast hlt
      omega
    rw [hlenN] at hrepl
    exact hrepl
  · intro θ N ds hθ hds hsum
    obtain ⟨hY, hX0, hXθ, htaps, hlen⟩ := motionRun_nonpos θ hθ ds hds 0 le_rfl (by linarith)
    rw [hsum] at hlen
    have hrepl := List.eq_replicate_of_mem htaps
    have hlenN : (motionRun θ ds 0 0).taps.length = N := by
      have hle : (((motionRun θ ds 0 0).taps.length : ℕ) : ℚ) ≤ (N : ℚ) := by nlinarith
      have hlt : (N : ℚ) < (((motionRun θ ds 0 0).taps.length : ℕ) : ℚ) + 1 := by nlinarith
      have h1 : (motionRun θ ds 0 0).taps.length ≤ N := by exact_mod_cast hle
      have h2 : N < (motionRun θ ds 0 0).taps.length + 1 := by exact_mod_cast hlt
      omega
    rw [hlenN] at hrepl
    exact hrepl

/-! ### Contact-tracker lemmas -/

theorem dget_filter_keyed {κ α : Type} [DecidableEq κ] (m : List (κ × α)) (f : κ → Bool) (c : κ) :
    dget (m.filter (fun p => f p.1)) c = if f c then dget m c else none := by
  induction m with
  | nil => simp [dget]
  | cons p rest ih =>
    by_cases hf : f p.1
    · rw [show (p :: rest).filter (fun p => f p.1) = p :: rest.filter (fun p => f p.1) from by
        simp [List.filter_cons, hf]]
      by_cases hpc : p.1 = c
      · subst hpc
        rw [show dget (p :: rest.filter (fun p => f p.1)) p.1 = some p.2 from by simp [dget]]
        rw [show dget (p :: rest) p.1 = some p.2 from by simp [dget]]
        rw [if_pos hf]
      · rw [show dget (p :: rest.filter (fun p => f p.1)) c =
            dget (rest.filter (fun p => f p.1)) c from by simp [dget, hpc]]
        rw [ih]
        rw [show dget (p :: rest) c = dget rest c from by simp [dget, hpc]]
    · rw [show (p :: rest).filter (fun p => f p.1) = rest.filter (fun p => f p.1) from by
        simp [List.filter_cons, hf]]
      rw [ih]
      by_cases hpc : p.1 = c
      · subst hpc
        rw [if_neg hf, if_neg hf]
      · rw [show dget (p :: rest) c = dget rest c from by simp [dget, hpc]]

theorem dpop_dpop {κ α : Type} [DecidableEq κ] (m : List (κ × α)) (c : κ) :
    dpop (dpop m c) c = dpop m c := by
  simp [dpop, List.filter_filter]

theorem dset_dpop {κ α : Type} [DecidableEq κ] (m : List (κ × α)) (c : κ) (v : α) :
    dset (dpop m c) c v = dset m c v := by
  simp [dset, dpop_dpop]

@[simp] theorem markCombos_touchStates (s : QB) : (markCombos s).touchStates = s.touchStates := rfl

@[simp] theorem markCombos_repeatStates (s : QB) : (markCombos s).repeatStates = s.repeatStates := rfl

@[simp] theorem markCombos_pressCount (s : QB) : (markCombos s).pressCount = s.pressCount := rfl

@[simp] theorem markCombos_events (s : QB) : (markCombos s).events = s.events := rfl

@[simp] theorem markCombos_visual (s : QB) : (markCombos s).visual = s.visual := rfl

@[simp] theorem markCombos_downKeys (s : QB) : (markCombos s).downKeys = s.downKeys := rfl

@[simp] theorem stopAll_touchStates (c : Nat) (s : QB) :
    (stopAllOtherRepeats c s).touchStates = s.touchStates := rfl

@[simp] theorem stopAll_pressCount (c : Nat) (s : QB) :
    (stopAllOtherRepeats c s).pressCount = s.pressCount := rfl

@[simp] theorem stopAll_events (c : Nat) (s : QB) :
    (stopAllOtherRepeats c s).events = s.events := rfl

@[simp] theorem stopAll_visual (c : Nat) (s : QB) :
    (stopAllOtherRepeats c s).visual = s.visual := rfl

@[simp] theorem stopAll_mods (c : Nat) (s : QB) :
    (stopAllOtherRepeats c s).mods = s.mods := rfl

@[simp] theorem stopAll_downKeys (c : Nat) (s : QB) :
    (stopAllOtherRepeats c s).downKeys = s.downKeys := rfl

@[simp] theorem cancelRepeat_touchStates (c : Nat) (s : QB) :
    (cancelRepeat c s).touchStates = s.touchStates := rfl

@[simp] theorem cancelRepeat_pressCount (c : Nat) (s : QB) :
    (cancelRepeat c s).pressCount = s.pressCount := rfl

@[simp] theorem cancelRepeat_events (c : Nat) (s : QB) :
    (cancelRepeat c s).events = s.events := rfl

@[simp] theorem cancelRepeat_visual (c : Nat) (s : QB) :
    (cancelRepeat c s).visual = s.visual := rfl

@[simp] theorem cancelRepeat_mods (c : Nat) (s : QB) :
    (cancelRepeat c s).mods = s.mods := rfl

@[simp] theorem cancelRepeat_downKeys (c : Nat) (s : QB) :
    (cancelRepeat c s).downKeys = s.downKeys := rfl

theorem startRepeat_notmod (k : Key) (hmk : isModifier k = false) (hsp : k ≠ Key.space)
    (c : Nat) (s : QB) :
    startRepeat c k s =
      { s with repeatStates := dset (dpop s.repeatStates c) c { delayOn := true, tickOn := false } } := by
  unfold startRepeat cancelRepeat
  rw [if_neg (by simp [hmk, hsp])]

theorem startRepeat_repeat_ord (k : Key) (hmk : isModifier k = false) (hsp : k ≠ Key.space)
    (c : Nat) (s : QB) :
    (startRepeat c k s).repeatStates = dset s.repeatStates c { delayOn := true, tickOn := false } := by
  rw [startRepeat_notmod k hmk hsp]
  exact dset_dpop _ _ _

theorem startRepeat_pressCount (c : Nat) (k : Key) (s : QB) :
    (startRepeat c k s).pressCount = s.pressCount := by
  unfold startRepeat cancelRepeat
  split <;> rfl

theorem startRepeat_touchStates (c : Nat) (k : Key) (s : QB) :
    (startRepeat c k s).touchStates = s.touchStates := by
  unfold startRepeat cancelRepeat
  split <;> rfl

theorem startRepeat_events (c : Nat) (k : Key) (s : QB) :
    (startRepeat c k s).events = s.events := by
  unfold startRepeat cancelRepeat
  split <;> rfl

theorem startRepeat_visual (c : Nat) (k : Key) (s : QB) :
    (startRepeat c k s).visual = s.visual := by
  unfold startRepeat cancelRepeat
  split <;> rfl

theorem startRepeat_mods (c : Nat) (k : Key) (s : QB) :
    (startRepeat c k s).mods = s.mods := by
  unfold startRepeat cancelRepeat
  split <;> rfl

theorem startRepeat_downKeys (c : Nat) (k : Key) (s : QB) :
    (startRepeat c k s).downKeys = s.downKeys := by
  unfold startRepeat cancelRepeat
  split <;> rfl

theorem stopAll_repeat_dget (c c2 : Nat) (s : QB) :
    dget (stopAllOtherRepeats c s).repeatStates c2 =
      if (c2 == c) || !(holdsRepeatable s c2) then dget s.repeatStates c2 else none := by
  exact dget_filter_keyed s.repeatStates (fun t => (t == c) || !(holdsRepeatable s t)) c2

@[simp] theorem registerTouch_touchStates (now : ℚ) (c : Nat) (k : Key) (s : QB) :
    (registerTouch now c k s).touchStates = dset s.touchStates c { keyCode := k, pressTime := now } := rfl

@[simp] theorem registerTouch_repeatStates (now : ℚ) (c : Nat) (k : Key) (s : QB) :
    (registerTouch now c k s).repeatStates = s.repeatStates := rfl

@[simp] theorem registerTouch_events (now : ℚ) (c : Nat) (k : Key) (s : QB) :
    (registerTouch now c k s).events = s.events := rfl

@[simp] theorem registerTouch_visual (now : ℚ) (c : Nat) (k : Key) (s : QB) :
    (registerTouch now c k s).visual = s.visual := rfl

@[simp] theorem registerTouch_mods (now : ℚ) (c : Nat) (k : Key) (s : QB) :
    (registerTouch now c k s).mods = s.mods := rfl

@[simp] theorem registerTouch_downKeys (now : ℚ) (c : Nat) (k : Key) (s : QB) :
    (registerTouch now c k s).downKeys = s.downKeys := rfl

theorem registerTouch_pressCount_self (now : ℚ) (c : Nat) (k : Key) (s : QB) :
    (registerTouch now c k s).pressCount k = s.pressCount k + 1 := by
  simp [registerTouch]

theorem begin_ordinary_eq (now : ℚ) (c : Nat) (k : Key) (s : QB)
    (hfresh : dget s.touchStates c = none) (hmk : isModifier k = false)
    (hsp : k ≠ Key.space) (hcap : k ≠ Key.capslock) :
    onInputBegin now c k s = beginOrdinaryCore c k (registerTouch now c k s) := by
  unfold onInputBegin
  rw [hfresh]
  simp [hmk, hsp, hcap]

theorem beginCore_pressCount (c : Nat) (k : Key) (s : QB) :
    (beginOrdinaryCore c k s).pressCount = s.pressCount := by
  unfold beginOrdinaryCore
  split
  · rw [updateVisual_pressCount, startRepeat_pressCount, tapKey_pressCount, stopAll_pressCount,
      markCombos_pressCount]
  · rw [startRepeat_pressCount, tapKey_pressCount, stopAll_pressCount, markCombos_pressCount]

theorem beginCore_touchStates (c : Nat) (k : Key) (s : QB) :
    (beginOrdinaryCore c k s).touchStates = s.touchStates := by
  unfold beginOrdinaryCore
  split
  · rw [updateVisual_touchStates, startRepeat_touchStates, tapKey_touchStates, stopAll_touchStates,
      markCombos_touchStates]
  · rw [startRepeat_touchStates, tapKey_touchStates, stopAll_touchStates, markCombos_touchStates]

theorem beginCore_events (c : Nat) (k : Key) (s : QB) :
    (beginOrdinaryCore c k s).events = s.events ++ [Ev.keyDown k, Ev.keyUp k] := by
  unfold beginOrdinaryCore
  split
  · rw [updateVisual_events, startRepeat_events, tapKey_events, stopAll_events, markCombos_events]
  · rw [startRepeat_events, tapKey_events, stopAll_events, markCombos_events]

theorem beginCore_mods (c : Nat) (k : Key) (s : QB) :
    (beginOrdinaryCore c k s).mods = (markCombos s).mods := by
  unfold beginOrdinaryCore
  split
  · rw [updateVisual_mods, startRepeat_mods, tapKey_mods, stopAll_mods]
  · rw [startRepeat_mods, tapKey_mods, stopAll_mods]

theorem beginCore_downKeys (c : Nat) (k : Key) (s : QB) :
    (beginOrdinaryCore c k s).downKeys = s.downKeys := by
  unfold beginOrdinaryCore
  split
  · rw [updateVisual_downKeys, startRepeat_downKeys, tapKey_downKeys, stopAll_downKeys,
      markCombos_downKeys]
  · rw [startRepeat_downKeys, tapKey_downKeys, stopAll_downKeys, markCombos_downKeys]

theorem beginCore_visual (c : Nat) (k : Key) (s : QB) :
    (beginOrdinaryCore c k s).visual =
      if s.pressCount k = 1 then (fun k2 => if k2 = k then true else s.visual k2)
      else s.visual := by
  unfold beginOrdinaryCore
  have hpc : (startRepeat c k (tapKey k (stopAllOtherRepeats c (markCombos s)))).pressCount
      = s.pressCount := by
    rw [startRepeat_pressCount, tapKey_pressCount, stopAll_pressCount, markCombos_pressCount]
  have hv : (startRepeat c k (tapKey k (stopAllOtherRepeats c (markCombos s)))).visual
      = s.visual := by
    rw [startRepeat_visual, tapKey_visual, stopAll_visual, markCombos_visual]
  split
  · rename_i hcond
    rw [hpc] at hcond
    rw [if_pos hcond]
    funext k2
    show (if k2 = k then true else _) = _
    rw [hv]
  · rename_i hcond
    rw [hpc] at hcond
    rw [if_neg hcond, hv]

theorem holdsRepeatable_markCombos (s : QB) (c2 : Nat) :
    holdsRepeatable (markCombos s) c2 = holdsRepeatable s c2 := rfl

theorem beginCore_repeat_self (c : Nat) (k : Key) (s : QB)
    (hmk : isModifier k = false) (hsp : k ≠ Key.space) :
    dget (beginOrdinaryCore c k s).repeatStates c = some { delayOn := true, tickOn := false } := by
  unfold beginOrdinaryCore
  split
  · rw [updateVisual_repeatStates, startRepeat_repeat_ord k hmk hsp]
    exact dget_dset_self _ _ _
  · rw [startRepeat_repeat_ord k hmk hsp]
    exact dget_dset_self _ _ _

theorem beginCore_repeat_other (c : Nat) (k : Key) (s : QB)
    (hmk : isModifier k = false) (hsp : k ≠ Key.space) {c2 : Nat} (hc2 : c2 ≠ c) :
    dget (beginOrdinaryCore c k s).repeatStates c2 =
      if holdsRepeatable s c2 then none else dget s.repeatStates c2 := by
  have hbeq : (c2 == c) = false := by simp [hc2]
  unfold beginOrdinaryCore
  split
  all_goals
    try rw [updateVisual_repeatStates]
  all_goals
    rw [startRepeat_repeat_ord k hmk hsp, dget_dset_ne _ _ hc2, tapKey_repeatStates,
      stopAll_repeat_dget, holdsRepeatable_markCombos, markCombos_repeatStates, hbeq]
  all_goals
    rcases hh : holdsRepeatable s c2 with _ | _ <;> simp [hh]

theorem oneShotStep_frame (m k : Key) (hne : k ≠ m) (s : QB) :
    (releaseOneShotStep s k).mods m = s.mods m ∧
    (releaseOneShotStep s k).downKeys m = s.downKeys m ∧
    (releaseOneShotStep s k).events.count (Ev.keyUp m) = s.events.count (Ev.keyUp m) := by
  unfold releaseOneShotStep
  split
  · refine ⟨?_, ?_, ?_⟩
    · rw [paintModifier_mods, setKeyState_mods, setMod_mods_ne _ _ (Ne.symm hne)]
    · rw [paintModifier_downKeys, setKeyState_down_ne _ _ _ (Ne.symm hne)]
      rfl
    · rw [paintModifier_events]
      rcases hd : (setMod s k { s.mods k with latched := false }).downKeys k with _ | _
      · rw [setKeyState_events_noop _ _ _ hd]
        rfl
      · rw [setKeyState_events_release _ _ hd]
        show ((setMod s k _).events ++ [Ev.keyUp k]).count (Ev.keyUp m) = _
        rw [List.count_append]
        have hz : ([Ev.keyUp k].count (Ev.keyUp m)) = 0 := by
          rw [List.count_eq_zero]
          simp [Ne.symm hne]
        rw [hz]
        show List.count (Ev.keyUp m) s.events + 0 = List.count (Ev.keyUp m) s.events
        rw [Nat.add_zero]
  · exact ⟨rfl, rfl, rfl⟩

theorem oneShotStep_self_active (m : Key) (s : QB)
    (hl : (s.mods m).latched = true) (hp : (s.mods m).pressed = false) :
    (releaseOneShotStep s m).mods m = { s.mods m with latched := false } ∧
    (releaseOneShotStep s m).downKeys m = false ∧
    (releaseOneShotStep s m).events.count (Ev.keyUp m) =
      s.events.count (Ev.keyUp m) + (if s.downKeys m = true then 1 else 0) := by
  unfold releaseOneShotStep
  rw [if_pos (by rw [hl, hp]; rfl)]
  refine ⟨?_, ?_, ?_⟩
  · rw [paintModifier_mods, setKeyState_mods, setMod_mods_self]
  · rw [paintModifier_downKeys, setKeyState_down_self]
  · rw [paintModifier_events]
    rcases hd : s.downKeys m with _ | _
    · have hd2 : (setMod s m { s.mods m with latched := false }).downKeys m = false := hd
      rw [setKeyState_events_noop _ _ _ hd2]
      show List.count (Ev.keyUp m) s.events =
        List.count (Ev.keyUp m) s.events + if false = true then 1 else 0
      simp
    · have hd2 : (setMod s m { s.mods m with latched := false }).downKeys m = true := hd
      rw [setKeyState_events_release _ _ hd2]
      show List.count (Ev.keyUp m) (s.events ++ [Ev.keyUp m]) =
        List.count (Ev.keyUp m) s.events + if true = true then 1 else 0
      rw [List.count_append]
      simp

theorem oneShotStep_self_skip (m : Key) (s : QB)
    (h : ¬((s.mods m).latched = true ∧ (s.mods m).pressed = false)) :
    releaseOneShotStep s m = s := by
  unfold releaseOneShotStep
  have hc : ¬(((s.mods m).latched && !(s.mods m).pressed) = true) := by
    intro hc
    rw [Bool.and_eq_true, Bool.not_eq_true'] at hc
    exact h hc
  rw [if_neg hc]

theorem oneShotFold_frame (m : Key) :
    ∀ (L : List Key), m ∉ L → ∀ s : QB,
      (L.foldl releaseOneShotStep s).mods m = s.mods m ∧
      (L.foldl releaseOneShotStep s).downKeys m = s.downKeys m ∧
      (L.foldl releaseOneShotStep s).events.count (Ev.keyUp m) =
        s.events.count (Ev.keyUp m) := by
  intro L
  induction L with
  | nil => intro _ s; exact ⟨rfl, rfl, rfl⟩
  | cons k rest ih =>
    intro hm s
    have hk : k ≠ m := fun h => hm (h ▸ List.mem_cons_self k rest)
    obtain ⟨f1, f2, f3⟩ := oneShotStep_frame m k hk s
    obtain ⟨g1, g2, g3⟩ := ih (fun h => hm (List.mem_cons_of_mem k h)) (releaseOneShotStep s k)
    rw [List.foldl_cons]
    exact ⟨g1.trans f1, g2.trans f2, g3.trans f3⟩

theorem oneShotFold_spec (m : Key) :
    ∀ (L : List Key), m ∈ L → L.Nodup → ∀ s : QB,
      (((s.mods m).latched = true → (s.mods m).pressed = false →
        ((L.foldl releaseOneShotStep s).mods m).latched = false ∧
        (L.foldl releaseOneShotStep s).downKeys m = false ∧
        (L.foldl releaseOneShotStep s).events.count (Ev.keyUp m) =
          s.events.count (Ev.keyUp m) + (if s.downKeys m = true then 1 else 0)) ∧
       ((s.mods m).pressed = true →
        (L.foldl releaseOneShotStep s).mods m = s.mods m ∧
        (L.foldl releaseOneShotStep s).downKeys m = s.downKeys m ∧
        (L.foldl releaseOneShotStep s).events.count (Ev.keyUp m) =
          s.events.count (Ev.keyUp m))) := by
  intro L
  induction L with
  | nil => intro hm; exact absurd hm (List.not_mem_nil m)
  | cons k rest ih =>
    intro hm hnd s
    rw [List.foldl_cons]
    by_cases hk : k = m
    · subst hk
      have hrest : k ∉ rest := (List.nodup_cons.mp hnd).1
      constructor
      · intro hl hp
        obtain ⟨a1, a2, a3⟩ := oneShotStep_self_active k s hl hp
        obtain ⟨f1, f2, f3⟩ := oneShotFold_frame k rest hrest (releaseOneShotStep s k)
        refine ⟨?_, ?_, ?_⟩
        · rw [f1, a1]
        · rw [f2, a2]
        · rw [f3, a3]
      · intro hp
        have hskip : releaseOneShotStep s k = s :=
          oneShotStep_self_skip k s (fun hh => by rw [hp] at hh; exact Bool.noConfusion hh.2)
        rw [hskip]
        exact oneShotFold_frame k rest hrest s
    · have hkm : k ≠ m := hk
      have hmrest : m ∈ rest := by
        rcases List.mem_cons.mp hm with h | h
        · exact absurd h.symm hkm
        · exact h
      have hndrest : rest.Nodup := (List.nodup_cons.mp hnd).2
      obtain ⟨f1, f2, f3⟩ := oneShotStep_frame m k hkm s
      obtain ⟨ha, hb⟩ := ih hmrest hndrest (releaseOneShotStep s k)
      constructor
      · intro hl hp
        obtain ⟨a1, a2, a3⟩ := ha (by rw [f1]; exact hl) (by rw [f1]; exact hp)
        refine ⟨a1, a2, ?_⟩
        rw [a3, f3, f2]
      · intro hp
        obtain ⟨b1, b2, b3⟩ := hb (by rw [f1]; exact hp)
        exact ⟨b1.trans f1, b2.trans f2, b3.trans f3⟩

theorem mem_modifierList (m : Key) (hm : isModifier m = true) : m ∈ modifierList := by
  cases m <;> first | decide | (simp [isModifier] at hm)

theorem isModifier_ne_space (m : Key) (hm : isModifier m = true) : m ≠ Key.space := by
  intro h
  rw [h] at hm
  exact absurd hm (by decide)

theorem releaseOneShot_spec (m : Key) (hm : isModifier m = true) (s : QB) :
    (((s.mods m).latched = true → (s.mods m).pressed = false →
      ((releaseOneShotModifiers s).mods m).latched = false ∧
      (releaseOneShotModifiers s).downKeys m = false ∧
      (releaseOneShotModifiers s).events.count (Ev.keyUp m) =
        s.events.count (Ev.keyUp m) + (if s.downKeys m = true then 1 else 0)) ∧
     ((s.mods m).pressed = true →
      (releaseOneShotModifiers s).mods m = s.mods m ∧
      (releaseOneShotModifiers s).downKeys m = s.downKeys m ∧
      (releaseOneShotModifiers s).events.count (Ev.keyUp m) =
        s.events.count (Ev.keyUp m))) :=
  oneShotFold_spec m modifierList (mem_modifierList m hm) (by decide) s

theorem oneShotStep_pressCount (s : QB) (k : Key) :
    (releaseOneShotStep s k).pressCount = s.pressCount := by
  unfold releaseOneShotStep
  split
  · rw [paintModifier_pressCount, setKeyState_pressCount]
    rfl
  · rfl

theorem releaseOneShot_pressCount (s : QB) :
    (releaseOneShotModifiers s).pressCount = s.pressCount :=
  foldl_preserve QB.pressCount releaseOneShotStep oneShotStep_pressCount modifierList s

theorem oneShotStep_touchStates (s : QB) (k : Key) :
    (releaseOneShotStep s k).touchStates = s.touchStates := by
  unfold releaseOneShotStep
  split
  · rw [paintModifier_touchStates, setKeyState_touchStates]
    rfl
  · rfl

theorem releaseOneShot_touchStates (s : QB) :
    (releaseOneShotModifiers s).touchStates = s.touchStates :=
  foldl_preserve QB.touchStates releaseOneShotStep oneShotStep_touchStates modifierList s

theorem oneShotStep_visual_notMod (k2 : Key) (h : isModifier k2 = false) (s : QB) (k : Key) :
    (releaseOneShotStep s k).visual k2 = s.visual k2 := by
  unfold releaseOneShotStep
  split
  · rw [paintModifier_visual_notMod _ _ _ h, setKeyState_visual]
    rfl
  · rfl

theorem releaseOneShot_visual_notMod (k2 : Key) (h : isModifier k2 = false) (s : QB) :
    (releaseOneShotModifiers s).visual k2 = s.visual k2 :=
  foldl_preserve (fun q => q.visual k2) releaseOneShotStep
    (fun s k => oneShotStep_visual_notMod k2 h s k) modifierList s

theorem oneShotStep_count_keyDown (x : Key) (s : QB) (k : Key) :
    (releaseOneShotStep s k).events.count (Ev.keyDown x) = s.events.count (Ev.keyDown x) := by
  unfold releaseOneShotStep
  split
  · rw [paintModifier_events]
    rcases hd : (setMod s k { s.mods k with latched := false }).downKeys k with _ | _
    · rw [setKeyState_events_noop _ _ _ hd]
      rfl
    · rw [setKeyState_events_release _ _ hd]
      show ((setMod s k _).events ++ [Ev.keyUp k]).count (Ev.keyDown x) = _
      rw [List.count_append]
      show List.count (Ev.keyDown x) s.events + List.count (Ev.keyDown x) [Ev.keyUp k] =
        List.count (Ev.keyDown x) s.events
      simp
  · rfl

theorem releaseOneShot_count_keyDown (x : Key) (s : QB) :
    (releaseOneShotModifiers s).events.count (Ev.keyDown x) = s.events.count (Ev.keyDown x) :=
  foldl_preserve (fun q => q.events.count (Ev.keyDown x)) releaseOneShotStep
    (fun s k => oneShotStep_count_keyDown x s k) modifierList s

@[simp] theorem cancelLP_mods (c : Nat) (s : QB) :
    (cancelSpaceLongPress c s).mods = s.mods := by
  unfold cancelSpaceLongPress
  split
  · split <;> rfl
  · rfl

@[simp] theorem cancelLP_downKeys (c : Nat) (s : QB) :
    (cancelSpaceLongPress c s).downKeys = s.downKeys := by
  unfold cancelSpaceLongPress
  split
  · split <;> rfl
  · rfl

@[simp] theorem cancelLP_events (c : Nat) (s : QB) :
    (cancelSpaceLongPress c s).events = s.events := by
  unfold cancelSpaceLongPress
  split
  · split <;> rfl
  · rfl

@[simp] theorem cancelLP_pressCount (c : Nat) (s : QB) :
    (cancelSpaceLongPress c s).pressCount = s.pressCount := by
  unfold cancelSpaceLongPress
  split
  · split <;> rfl
  · rfl

@[simp] theorem cancelLP_touchStates (c : Nat) (s : QB) :
    (cancelSpaceLongPress c s).touchStates = s.touchStates := by
  unfold cancelSpaceLongPress
  split
  · split <;> rfl
  · rfl

@[simp] theorem cancelLP_visual (c : Nat) (s : QB) :
    (cancelSpaceLongPress c s).visual = s.visual := by
  unfold cancelSpaceLongPress
  split
  · split <;> rfl
  · rfl

theorem finish_mods (c : Nat) (s : QB) :
    (finishSpaceTracking c s).mods = s.mods := by
  unfold finishSpaceTracking
  split
  · rfl
  · split
    · rw [cancelLP_mods]
    · rw [tapKey_mods, cancelLP_mods]

theorem finish_downKeys (c : Nat) (s : QB) :
    (finishSpaceTracking c s).downKeys = s.downKeys := by
  unfold finishSpaceTracking
  split
  · rfl
  · split
    · rw [cancelLP_downKeys]
    · rw [tapKey_downKeys, cancelLP_downKeys]

theorem finish_pressCount (c : Nat) (s : QB) :
    (finishSpaceTracking c s).pressCount = s.pressCount := by
  unfold finishSpaceTracking
  split
  · rfl
  · split
    · rw [cancelLP_pressCount]
    · rw [tapKey_pressCount, cancelLP_pressCount]

theorem finish_touchStates (c : Nat) (s : QB) :
    (finishSpaceTracking c s).touchStates = s.touchStates := by
  unfold finishSpaceTracking
  split
  · rfl
  · split
    · rw [cancelLP_touchStates]
    · rw [tapKey_touchStates, cancelLP_touchStates]

theorem finish_visual (c : Nat) (s : QB) :
    (finishSpaceTracking c s).visual = s.visual := by
  unfold finishSpaceTracking
  split
  · rfl
  · split
    · rw [cancelLP_visual]
    · rw [tapKey_visual, cancelLP_visual]

theorem finish_count_keyUp_ne (c : Nat) (s : QB) {m : Key} (hm : m ≠ Key.space) :
    (finishSpaceTracking c s).events.count (Ev.keyUp m) = s.events.count (Ev.keyUp m) := by
  unfold finishSpaceTracking
  split
  · rw [tapKey_events, List.count_append]
    simp [hm]
  · split
    · rw [cancelLP_events]
    · rw [tapKey_events, cancelLP_events, List.count_append]
      simp [hm]

@[simp] theorem popTouch_mods (c : Nat) (k : Key) (s : QB) :
    (popTouch c k s).mods = s.mods := rfl

@[simp] theorem popTouch_downKeys (c : Nat) (k : Key) (s : QB) :
    (popTouch c k s).downKeys = s.downKeys := rfl

@[simp] theorem popTouch_events (c : Nat) (k : Key) (s : QB) :
    (popTouch c k s).events = s.events := rfl

@[simp] theorem popTouch_visual (c : Nat) (k : Key) (s : QB) :
    (popTouch c k s).visual = s.visual := rfl

@[simp] theorem popTouch_spaceTrack (c : Nat) (k : Key) (s : QB) :
    (popTouch c k s).spaceTrack = s.spaceTrack := rfl

@[simp] theorem popTouch_touchStates (c : Nat) (k : Key) (s : QB) :
    (popTouch c k s).touchStates = dpop s.touchStates c := rfl

theorem popTouch_pressCount_pos (c : Nat) (k : Key) (s : QB) (h : s.pressCount k > 0) :
    (popTouch c k s).pressCount k = s.pressCount k - 1 := by
  simp [popTouch, h]

theorem end_ordinary_eq (now : ℚ) (c : Nat) (s : QB) (t : TouchState)
    (ht : dget s.touchStates c = some t) (hmk : isModifier t.keyCode = false)
    (hsp : t.keyCode ≠ Key.space) (hcap : t.keyCode ≠ Key.capslock) :
    onInputEnd now c s =
      (if (if s.pressCount t.keyCode > 0 then s.pressCount t.keyCode - 1 else 0) = 0 then
        updateVisual t.keyCode false
          (releaseOneShotModifiers (cancelRepeat c (popTouch c t.keyCode s)))
      else releaseOneShotModifiers (cancelRepeat c (popTouch c t.keyCode s))) := by
  unfold onInputEnd
  rw [ht]
  simp [hmk, hsp, hcap]

theorem end_space_eq (now : ℚ) (c : Nat) (s : QB) (t : TouchState)
    (ht : dget s.touchStates c = some t) (hsp : t.keyCode = Key.space) :
    onInputEnd now c s =
      updateVisual t.keyCode false
        (releaseOneShotModifiers (finishSpaceTracking c (popTouch c t.keyCode s))) := by
  unfold onInputEnd
  rw [ht]
  simp [hsp, isModifier]

/-! ### Claim C9 -/

/-- C9 (amended, qingboard half): after `begin` of an ordinary key on a
fresh contact, that contact carries the freshly started repeat
(initial-delay phase), every *other* contact holding an ordinary key
has had its repeat cancelled, and hence at most one ordinary-key
contact has a live repeat timer. -/
theorem c9_single_repeat_qingboard (s : QB) (now : ℚ) (c : Nat) (k : Key)
    (hfresh : dget s.touchStates c = none) (hmk : isModifier k = false)
    (hsp : k ≠ Key.space) (hcap : k ≠ Key.capslock) :
    dget (onInputBegin now c k s).repeatStates c = some { delayOn := true, tickOn := false } ∧
    (∀ c2, c2 ≠ c → ∀ t, dget (onInputBegin now c k s).touchStates c2 = some t →
      isModifier t.keyCode = false → t.keyCode ≠ Key.space →
      dget (onInputBegin now c k s).repeatStates c2 = none) ∧
    (∀ c1 c2 t1 t2,
      dget (onInputBegin now c k s).touchStates c1 = some t1 →
      isModifier t1.keyCode = false → t1.keyCode ≠ Key.space →
      dget (onInputBegin now c k s).repeatStates c1 ≠ none →
      dget (onInputBegin now c k s).touchStates c2 = some t2 →
      isModifier t2.keyCode = false → t2.keyCode ≠ Key.space →
      dget (onInputBegin now c k s).repeatStates c2 ≠ none →
      c1 = c2) := by
  rw [begin_ordinary_eq now c k s hfresh hmk hsp hcap]
  have hother : ∀ c2, c2 ≠ c → ∀ t,
      dget (beginOrdinaryCore c k (registerTouch now c k s)).touchStates c2 = some t →
      isModifier t.keyCode = false → t.keyCode ≠ Key.space →
      dget (beginOrdinaryCore c k (registerTouch now c k s)).repeatStates c2 = none := by
    intro c2 hc2 t ht hmt hst
    rw [beginCore_touchStates, registerTouch_touchStates, dget_dset_ne _ _ hc2] at ht
    rw [beginCore_repeat_other c k _ hmk hsp hc2]
    have hold : holdsRepeatable (registerTouch now c k s) c2 = true := by
      unfold holdsRepeatable
      rw [registerTouch_touchStates, dget_dset_ne _ _ hc2, ht]
      simp [hmt, hst]
    rw [hold]
    simp
  refine ⟨beginCore_repeat_self c k _ hmk hsp, hother, ?_⟩
  intro c1 c2 t1 t2 h1t h1m h1s h1r h2t h2m h2s h2r
  by_cases hc1 : c1 = c
  · by_cases hc2 : c2 = c
    · rw [hc1, hc2]
    · exact absurd (hother c2 hc2 t2 h2t h2m h2s) h2r
  · exact absurd (hother c1 hc1 t1 h1t h1m h1s) h1r

/-- A qingboard state in which contact 3 is holding an ordinary key
with a ticking repeat timer. -/
def qbC9wit : QB :=
  { emptyQB with
      touchStates := [(3, { keyCode := Key.ordinary 7, pressTime := 0 })],
      repeatStates := [(3, { delayOn := false, tickOn := true })] }

/-- C9, witness: contact 0 begins ordinary key 5 while contact 3 holds
ordinary key 7 with a live repeat; afterwards only contact 0 has a
repeat timer. -/
theorem c9_witness :
    dget (onInputBegin 1 0 (Key.ordinary 5) qbC9wit).repeatStates 0 =
        some { delayOn := true, tickOn := false } ∧
    dget (onInputBegin 1 0 (Key.ordinary 5) qbC9wit).repeatStates 3 = none := by
  obtain ⟨ha, hb, _⟩ := c9_single_repeat_qingboard qbC9wit 1 0 (Key.ordinary 5)
    rfl rfl (by decide) (by decide)
  refine ⟨ha, hb 3 (by decide) { keyCode := Key.ordinary 7, pressTime := 0 } ?_ (by decide) (by decide)⟩
  decide

/-- A mutterboard state in which ordinary key 0 is active with a
ticking repeat timer. -/
def mbC9cex : MB :=
  { mods := fun _ => {}, downKeys := fun k => decide (k = Key.ordinary 0),
    events := [], visual := fun k => decide (k = Key.ordinary 0),
    activeKeys := fun k => decide (k = Key.ordinary 0),
    repeatStates := [(Key.ordinary 0, { delayOn := false, tickOn := true })] }

/-- C9, counterexample: in mutterboard, pressing a second ordinary key
does not cancel the first key's repeat — after `on_button_press` of key
1 while key 0 repeats, both keys hold live repeat timers, so the claim
"at any time at most one ordinary key auto-repeats" fails on this
application. -/
theorem c9_counterexample_mutterboard_keeps_other_repeat :
    dget (mbOnButtonPress (Key.ordinary 1) mbC9cex).repeatStates (Key.ordinary 0) =
        some { delayOn := false, tickOn := true } ∧
    dget (mbOnButtonPress (Key.ordinary 1) mbC9cex).repeatStates (Key.ordinary 1) =
        some { delayOn := true, tickOn := false } := by
  decide

/-! ### Claim C7 -/

/-! ### Claim C5 -/

theorem ite_updateVisual_mods (c : Prop) [Decidable c] (k2 : Key) (X : QB) :
    (if c then updateVisual k2 false X else X).mods = X.mods := by
  split <;> rfl

theorem ite_updateVisual_downKeys (c : Prop) [Decidable c] (k2 : Key) (X : QB) :
    (if c then updateVisual k2 false X else X).downKeys = X.downKeys := by
  split <;> rfl

theorem ite_updateVisual_events (c : Prop) [Decidable c] (k2 : Key) (X : QB) :
    (if c then updateVisual k2 false X else X).events = X.events := by
  split <;> rfl

/-- C5: when an ordinary-key or space contact completes its
press-release cycle, every modifier that was latched and not physically
held has its latch cleared, ends physically up and (if it was down)
gets exactly one physical release event; every modifier still
physically held keeps its whole state. -/
theorem c5_one_shot_release (s : QB) (now : ℚ) (c : Nat) (t : TouchState)
    (ht : dget s.touchStates c = some t) (hmk : isModifier t.keyCode = false)
    (hcap : t.keyCode ≠ Key.capslock) (m : Key) (hm : isModifier m = true) :
    ((s.mods m).latched = true → (s.mods m).pressed = false →
      (((onInputEnd now c s).mods m).latched = false ∧
       (onInputEnd now c s).downKeys m = false ∧
       (s.downKeys m = true →
         (onInputEnd now c s).events.count (Ev.keyUp m) =
           s.events.count (Ev.keyUp m) + 1))) ∧
    ((s.mods m).pressed = true → (onInputEnd now c s).mods m = s.mods m) := by
  by_cases hsp : t.keyCode = Key.space
  · rw [end_space_eq now c s t ht hsp]
    have hpm : (finishSpaceTracking c (popTouch c t.keyCode s)).mods = s.mods :=
      (finish_mods c _).trans (popTouch_mods c _ s)
    have hpd : (finishSpaceTracking c (popTouch c t.keyCode s)).downKeys = s.downKeys :=
      (finish_downKeys c _).trans (popTouch_downKeys c _ s)
    have hpc2 : (finishSpaceTracking c (popTouch c t.keyCode s)).events.count (Ev.keyUp m) =
        s.events.count (Ev.keyUp m) :=
      finish_count_keyUp_ne c (popTouch c t.keyCode s) (isModifier_ne_space m hm)
    obtain ⟨h1, h2⟩ := releaseOneShot_spec m hm (finishSpaceTracking c (popTouch c t.keyCode s))
    constructor
    · intro hl hp
      obtain ⟨a1, a2, a3⟩ := h1 (by rw [hpm]; exact hl) (by rw [hpm]; exact hp)
      refine ⟨a1, a2, ?_⟩
      intro hdm
      rw [hpd, hpc2, hdm] at a3
      simpa using a3
    · intro hp
      obtain ⟨b1, _, _⟩ := h2 (by rw [hpm]; exact hp)
      exact b1.trans (congrFun hpm m)
  · rw [end_ordinary_eq now c s t ht hmk hsp hcap,
      ite_updateVisual_mods, ite_updateVisual_downKeys, ite_updateVisual_events]
    have hqm : (cancelRepeat c (popTouch c t.keyCode s)).mods = s.mods := rfl
    have hqd : (cancelRepeat c (popTouch c t.keyCode s)).downKeys = s.downKeys := rfl
    have hqc : (cancelRepeat c (popTouch c t.keyCode s)).events.count (Ev.keyUp m) =
        s.events.count (Ev.keyUp m) := rfl
    obtain ⟨h1, h2⟩ := releaseOneShot_spec m hm (cancelRepeat c (popTouch c t.keyCode s))
    constructor
    · intro hl hp
      obtain ⟨a1, a2, a3⟩ := h1 (by rw [hqm]; exact hl) (by rw [hqm]; exact hp)
      refine ⟨a1, a2, ?_⟩
      intro hdm
      rw [hqd, hqc, hdm] at a3
      simpa using a3
    · intro hp
      obtain ⟨b1, _, _⟩ := h2 (by rw [hqm]; exact hp)
      exact b1.trans (congrFun hqm m)

/-- A state with one ordinary-key contact, Shift_R latched but not
held, Ctrl_L held and latched, and both physically down. -/
def qbC5wit : QB :=
  { emptyQB with
      touchStates := [(0, { keyCode := Key.ordinary 1, pressTime := 0 })],
      pressCount := fun k => if k = Key.ordinary 1 then 1 else 0,
      mods := fun k =>
        if k = Key.shiftR then { pressed := false, latched := true, usedInCombo := false }
        else if k = Key.ctrlL then { pressed := true, latched := true, usedInCombo := true }
        else {},
      downKeys := fun k => decide (k = Key.shiftR) || decide (k = Key.ctrlL) }

/-- C5, witness: ending the ordinary-key contact clears the non-held
Shift_R latch with one release event, while the held Ctrl_L keeps its
full state. -/
theorem c5_witness :
    (((onInputEnd 1 0 qbC5wit).mods Key.shiftR).latched = false ∧
     (onInputEnd 1 0 qbC5wit).downKeys Key.shiftR = false ∧
     (onInputEnd 1 0 qbC5wit).events.count (Ev.keyUp Key.shiftR) =
       qbC5wit.events.count (Ev.keyUp Key.shiftR) + 1) ∧
    (onInputEnd 1 0 qbC5wit).mods Key.ctrlL = qbC5wit.mods Key.ctrlL := by
  obtain ⟨hA, _⟩ := c5_one_shot_release qbC5wit 1 0 { keyCode := Key.ordinary 1, pressTime := 0 }
    (by decide) (by decide) (by decide) Key.shiftR (by decide)
  obtain ⟨_, hB⟩ := c5_one_shot_release qbC5wit 1 0 { keyCode := Key.ordinary 1, pressTime := 0 }
    (by decide) (by decide) (by decide) Key.ctrlL (by decide)
  obtain ⟨a1, a2, a3⟩ := hA (by decide) (by decide)
  exact ⟨⟨a1, a2, a3 (by decide)⟩, hB (by decide)⟩

/-! ### Claim C6 -/

/-- C6: two contacts pressing the same ordinary key, then releasing one
of them, leave the reference count at 1 with the visual still pressed;
only the second release takes the count to 0 and fires the visual
release, while the immediate tap is emitted once per begin. -/
theorem c6_refcount_visual (s : QB) (t1 t2 t3 t4 : ℚ) (c1 c2 : Nat) (k : Key)
    (hc : c1 ≠ c2)
    (h1 : dget s.touchStates c1 = none) (h2 : dget s.touchStates c2 = none)
    (hcount : s.pressCount k = 0)
    (hmk : isModifier k = false) (hsp : k ≠ Key.space) (hcap : k ≠ Key.capslock) :
    (onInputBegin t2 c2 k (onInputBegin t1 c1 k s)).events.count (Ev.keyDown k) =
      s.events.count (Ev.keyDown k) + 2 ∧
    (onInputEnd t3 c1 (onInputBegin t2 c2 k (onInputBegin t1 c1 k s))).pressCount k = 1 ∧
    (onInputEnd t3 c1 (onInputBegin t2 c2 k (onInputBegin t1 c1 k s))).visual k = true ∧
    (onInputEnd t4 c2 (onInputEnd t3 c1
      (onInputBegin t2 c2 k (onInputBegin t1 c1 k s)))).pressCount k = 0 ∧
    (onInputEnd t4 c2 (onInputEnd t3 c1
      (onInputBegin t2 c2 k (onInputBegin t1 c1 k s)))).visual k = false := by
  have hA : onInputBegin t1 c1 k s = beginOrdinaryCore c1 k (registerTouch t1 c1 k s) :=
    begin_ordinary_eq t1 c1 k s h1 hmk hsp hcap
  have hApck : (onInputBegin t1 c1 k s).pressCount k = 1 := by
    rw [hA, beginCore_pressCount, registerTouch_pressCount_self, hcount]
  have hAtouch : (onInputBegin t1 c1 k s).touchStates =
      dset s.touchStates c1 { keyCode := k, pressTime := t1 } := by
    rw [hA, beginCore_touchStates, registerTouch_touchStates]
  have hAev : (onInputBegin t1 c1 k s).events = s.events ++ [Ev.keyDown k, Ev.keyUp k] := by
    rw [hA, beginCore_events, registerTouch_events]
  have hr1c : (registerTouch t1 c1 k s).pressCount k = 1 := by
    rw [registerTouch_pressCount_self, hcount]
  have hAvis : (onInputBegin t1 c1 k s).visual k = true := by
    rw [hA, beginCore_visual, if_pos hr1c]
    simp
  have hAfresh2 : dget (onInputBegin t1 c1 k s).touchStates c2 = none := by
    rw [hAtouch, dget_dset_ne _ _ (Ne.symm hc), h2]
  have hB : onInputBegin t2 c2 k (onInputBegin t1 c1 k s) =
      beginOrdinaryCore c2 k (registerTouch t2 c2 k (onInputBegin t1 c1 k s)) :=
    begin_ordinary_eq t2 c2 k _ hAfresh2 hmk hsp hcap
  have hBpck : (onInputBegin t2 c2 k (onInputBegin t1 c1 k s)).pressCount k = 2 := by
    rw [hB, beginCore_pressCount, registerTouch_pressCount_self, hApck]
  have hBtouch : (onInputBegin t2 c2 k (onInputBegin t1 c1 k s)).touchStates =
      dset (onInputBegin t1 c1 k s).touchStates c2 { keyCode := k, pressTime := t2 } := by
    rw [hB, beginCore_touchStates, registerTouch_touchStates]
  have hBev : (onInputBegin t2 c2 k (onInputBegin t1 c1 k s)).events =
      s.events ++ [Ev.keyDown k, Ev.keyUp k] ++ [Ev.keyDown k, Ev.keyUp k] := by
    rw [hB, beginCore_events, registerTouch_events, hAev]
  have hr2c : (registerTouch t2 c2 k (onInputBegin t1 c1 k s)).pressCount k = 2 := by
    rw [registerTouch_pressCount_self, hApck]
  have hBvis : (onInputBegin t2 c2 k (onInputBegin t1 c1 k s)).visual k = true := by
    rw [hB, beginCore_visual, if_neg (by rw [hr2c]; decide), registerTouch_visual]
    exact hAvis
  have htap : ([Ev.keyDown k, Ev.keyUp k].count (Ev.keyDown k)) = 1 := by simp
  have hcount2 : (onInputBegin t2 c2 k (onInputBegin t1 c1 k s)).events.count (Ev.keyDown k) =
      s.events.count (Ev.keyDown k) + 2 := by
    rw [hBev, List.count_append, List.count_append, htap]
  have hCt : dget (onInputBegin t2 c2 k (onInputBegin t1 c1 k s)).touchStates c1 =
      some { keyCode := k, pressTime := t1 } := by
    rw [hBtouch, dget_dset_ne _ _ hc, hAtouch, dget_dset_self]
  have hc1 : ¬((if (onInputBegin t2 c2 k (onInputBegin t1 c1 k s)).pressCount k > 0 then
      (onInputBegin t2 c2 k (onInputBegin t1 c1 k s)).pressCount k - 1 else 0) = 0) := by
    rw [hBpck]
    decide
  have hCeq : onInputEnd t3 c1 (onInputBegin t2 c2 k (onInputBegin t1 c1 k s)) =
      releaseOneShotModifiers (cancelRepeat c1
        (popTouch c1 k (onInputBegin t2 c2 k (onInputBegin t1 c1 k s)))) := by
    rw [end_ordinary_eq t3 c1 _ { keyCode := k, pressTime := t1 } hCt hmk hsp hcap]
    exact if_neg hc1
  have hCpc : (onInputEnd t3 c1 (onInputBegin t2 c2 k (onInputBegin t1 c1 k s))).pressCount k
      = 1 := by
    rw [hCeq, releaseOneShot_pressCount, cancelRepeat_pressCount,
      popTouch_pressCount_pos _ _ _ (by rw [hBpck]; decide), hBpck]
  have hCvis : (onInputEnd t3 c1 (onInputBegin t2 c2 k (onInputBegin t1 c1 k s))).visual k
      = true := by
    rw [hCeq, releaseOneShot_visual_notMod k hmk, cancelRepeat_visual, popTouch_visual]
    exact hBvis
  have hCtouch2 : dget (onInputEnd t3 c1
      (onInputBegin t2 c2 k (onInputBegin t1 c1 k s))).touchStates c2 =
      some { keyCode := k, pressTime := t2 } := by
    rw [hCeq, releaseOneShot_touchStates, cancelRepeat_touchStates, popTouch_touchStates,
      dget_dpop_ne _ (Ne.symm hc), hBtouch, dget_dset_self]
  have hc2 : (if (onInputEnd t3 c1 (onInputBegin t2 c2 k (onInputBegin t1 c1 k s))).pressCount k
      > 0 then
      (onInputEnd t3 c1 (onInputBegin t2 c2 k (onInputBegin t1 c1 k s))).pressCount k - 1
      else 0) = 0 := by
    rw [hCpc]
    decide
  have hDeq : onInputEnd t4 c2 (onInputEnd t3 c1
      (onInputBegin t2 c2 k (onInputBegin t1 c1 k s))) =
      updateVisual k false (releaseOneShotModifiers (cancelRepeat c2 (popTouch c2 k
        (onInputEnd t3 c1 (onInputBegin t2 c2 k (onInputBegin t1 c1 k s)))))) := by
    rw [end_ordinary_eq t4 c2 _ { keyCode := k, pressTime := t2 } hCtouch2 hmk hsp hcap]
    exact if_pos hc2
  have hDpc : (onInputEnd t4 c2 (onInputEnd t3 c1
      (onInputBegin t2 c2 k (onInputBegin t1 c1 k s)))).pressCount k = 0 := by
    rw [hDeq, updateVisual_pressCount, releaseOneShot_pressCount, cancelRepeat_pressCount,
      popTouch_pressCount_pos _ _ _ (by rw [hCpc]; decide), hCpc]
  have hDvis : (onInputEnd t4 c2 (onInputEnd t3 c1
      (onInputBegin t2 c2 k (onInputBegin t1 c1 k s)))).visual k = false := by
    rw [hDeq]
    exact updateVisual_visual_self k false _
  exact ⟨hcount2, hCpc, hCvis, hDpc, hDvis⟩

/-- C6, witness: contacts 0 and 1 both press ordinary key 0 from the
quiescent state; the first release keeps count 1 and the pressed
visual, the second reaches 0 and clears it; two taps total. -/
theorem c6_witness :
    (onInputBegin 2 1 (Key.ordinary 0) (onInputBegin 1 0 (Key.ordinary 0) emptyQB)).events.count
        (Ev.keyDown (Key.ordinary 0)) =
      emptyQB.events.count (Ev.keyDown (Key.ordinary 0)) + 2 ∧
    (onInputEnd 3 0 (onInputBegin 2 1 (Key.ordinary 0)
        (onInputBegin 1 0 (Key.ordinary 0) emptyQB))).pressCount (Key.ordinary 0) = 1 ∧
    (onInputEnd 3 0 (onInputBegin 2 1 (Key.ordinary 0)
        (onInputBegin 1 0 (Key.ordinary 0) emptyQB))).visual (Key.ordinary 0) = true ∧
    (onInputEnd 4 1 (onInputEnd 3 0 (onInputBegin 2 1 (Key.ordinary 0)
        (onInputBegin 1 0 (Key.ordinary 0) emptyQB)))).pressCount (Key.ordinary 0) = 0 ∧
    (onInputEnd 4 1 (onInputEnd 3 0 (onInputBegin 2 1 (Key.ordinary 0)
        (onInputBegin 1 0 (Key.ordinary 0) emptyQB)))).visual (Key.ordinary 0) = false :=
  c6_refcount_visual emptyQB 1 2 3 4 0 1 (Key.ordinary 0) (by decide) rfl rfl rfl
    (by decide) (by decide) (by decide)

/-- C7: evaluation of both space long-press paths on contact 7 from the
quiescent state.  Releasing before the timer fires emits exactly one
space tap, destroys the tracking record and never shows the cursor-mode
indicator — but the long-press GLib source is left pending
(`_finish_space_tracking` pops the record before calling
`_cancel_space_long_press`, which then finds nothing to remove), where
the claim and the specification require the timer to be cancelled.
After the timer has fired (cursor mode entered), the release emits zero
space taps but the cursor-mode indicator is never cleared
(`_set_space_cursor_visual(..., False)` is dead code), where the claim
requires it cleared. -/
theorem c7_space_long_press_evaluation :
    ((onInputEnd 2 7 (onInputBegin 1 7 Key.space emptyQB)).events.count
        (Ev.keyDown Key.space) = 1) ∧
    (dget (onInputEnd 2 7 (onInputBegin 1 7 Key.space emptyQB)).spaceTrack 7 = none) ∧
    ((onInputEnd 2 7 (onInputBegin 1 7 Key.space emptyQB)).cursorVisual = false) ∧
    ((onInputEnd 2 7 (onInputBegin 1 7 Key.space emptyQB)).pendingLongPress 7 = true) ∧
    ((onInputEnd 2 7 (enterSpaceCursorMode 7 (onInputBegin 1 7 Key.space emptyQB))).events.count
        (Ev.keyDown Key.space) = 0) ∧
    ((onInputEnd 2 7 (enterSpaceCursorMode 7 (onInputBegin 1 7 Key.space emptyQB))).cursorVisual
        = true) := by
  decide

/-- C8, witness: two thresholds of rightward displacement in one sample
produce exactly two RIGHT taps; a sub-threshold x-dominant sample emits
nothing and preserves both accumulators. -/
theorem c8_witness :
    (motionRun 1 [2] 0 0).taps = List.replicate 2 Key.arrowRight ∧
    ((emitCursorMoves 28 5 3).taps = [] →
      (emitCursorMoves 28 5 3).accumX = 5 ∧ (emitCursorMoves 28 5 3).accumY = 3) ∧
    (∀ k ∈ (emitCursorMoves 1 0 2).taps, k = Key.arrowDown ∨ k = Key.arrowUp) := by
  refine ⟨?_, ?_, ?_⟩
  · exact c8_cursor_steps.2.2.1 1 2 [2] (by norm_num)
      (by intro d hd; rw [List.mem_singleton] at hd; rw [hd]; norm_num)
      (by norm_num)
  · exact (c8_cursor_steps.1 28 5 3 (by norm_num)
      (by rw [abs_of_nonneg (by norm_num : (0:ℚ) ≤ 3), abs_of_nonneg (by norm_num : (0:ℚ) ≤ 5)]; norm_num)).2.2.1
  · exact (c8_cursor_steps.2.1 1 0 2 (by norm_num)
      (by rw [abs_zero, abs_of_nonneg (by norm_num : (0:ℚ) ≤ 2)]; norm_num)).1

end VKB
